import Mathlib

/-!
# Verification of `calamari_ctl.py` (calamari setup tool)

Shallow embedding of `src/cthulhu/cthulhu/calamari_ctl.py`.  The Python
program is a command-line bootstrap/maintenance tool; its state lives in a
filesystem, a versioned schema store (sqlalchemy + alembic), and a Django
user directory.  We model those stores explicitly and translate each
function of the source into a pure Lean function over them.

External collaborators (Django ORM, alembic, openssl, systemctl) are
modelled at their interface boundary, as the spec directs (spec.md section 9):
each external invocation either succeeds (updating the modelled state the
way the collaborator is documented to) or fails, and failure outcomes are
supplied through an oracle record `Ext` so that theorems quantify over all
success/failure patterns of the environment.
-/

namespace Calamari

/-- One Django user row (`auth_user`): the fields `calamari_ctl.py` reads or
writes.  `id` is the primary key: `save()` updates the row with this id. -/
structure UserAccount where
  id : Nat
  username : String
  email : String
  password : String
  is_active : Bool
  is_superuser : Bool
  /-- names of the Django groups (roles) the user belongs to -/
  groups : List String
deriving DecidableEq, Repr

/-- The Django user directory: the `auth_user` table plus the `auth_group`
(role) table.  `nextId` is the autoincrement counter for fresh rows. -/
structure Directory where
  nextId : Nat
  users : List UserAccount
  roles : List String
deriving DecidableEq, Repr

/-- Model of `user_model.objects.get(username=...)`: first row whose username matches,
`none` when the query raises `DoesNotExist`. -/
def getUser (d : Directory) (username : String) : Option UserAccount :=
  d.users.find? fun u => u.username == username

/-- Model of `user.save()`: write the (mutated) row back by primary key. -/
def saveUser (d : Directory) (u : UserAccount) : Directory :=
  { d with users := d.users.map fun v => if v.id == u.id then u else v }

/-- The exception kinds `calamari_ctl.py` distinguishes:
`CalamariUserError` (raised by the account helpers, source line 67),
Django's `DoesNotExist`, and `RuntimeError` from `run_cmd` (line 94);
further unclassified exceptions are also carried as `runtimeError`. -/
inductive PyError
  | calamariUserError (msg : String)
  | doesNotExist (msg : String)
  | runtimeError (msg : String)
deriving DecidableEq, Repr

/-- Is the exception a `CalamariUserError`?  (`isinstance(e, CalamariUserError)`,
source line 397.) -/
def isUserError : PyError → Bool
  | .calamariUserError _ => true
  | _ => false

/-- Result of one account-management call: the directory after the call
(unchanged when the call raised before any `save`), the exception that
escaped the call (`none` when it returned normally), and the `log.error`
messages it emitted. -/
structure OpResult where
  dir : Directory
  err : Option PyError
  logs : List String
deriving DecidableEq, Repr

/-- Model of a Django many-to-many membership write: assigning to
`user.groups` (or calling `user.groups.add`) executes against the
membership table IMMEDIATELY, not at `save()`.  Only the row with this
user's id changes, and only its `groups` field. -/
def saveGroups (d : Directory) (u : UserAccount) : Directory :=
  { d with users := d.users.map fun v =>
      if v.id == u.id then { v with groups := u.groups } else v }

/-- Translation of `assign_role` (source lines 118-143).  Looks the user
up; `user.groups = []` (line 129) is a Django 1.x related-manager
assignment — an immediate many-to-many database write, modelled by
`saveGroups` — while `user.is_superuser` (line 130) is a plain column,
persisted only by `user.save()` (line 143).  Then either the superuser flag
is set, or the named group is looked up — raising `CalamariUserError` when
missing, at which point the membership clearing has already been
persisted — and added (again an immediate M2M write), before `user.save()`
persists the row's columns. -/
def assign_role (d : Directory) (username role_name : String) : OpResult :=
  match getUser d username with
  | none =>
      { dir := d, err := some (.calamariUserError "User matching query does not exist."),
        logs := ["User " ++ username ++ " does not exist"] }
  | some user =>
      let user := { user with groups := [] }
      let d := saveGroups d user
      let user := { user with is_superuser := false }
      if role_name == "superuser" then
        let user := { user with is_superuser := true }
        { dir := saveUser d user, err := none, logs := [] }
      else
        if d.roles.contains role_name then
          let user := { user with groups := user.groups ++ [role_name] }
          let d := saveGroups d user
          { dir := saveUser d user, err := none, logs := [] }
        else
          { dir := d, err := some (.calamariUserError "Group matching query does not exist."),
            logs := ["Role " ++ role_name ++ " does not exist"] }

/-- Model of `user_model.objects.create_user(...)`: fresh active, non-super row. -/
def create_user (d : Directory) (username email password : String) : Directory :=
  { d with
    nextId := d.nextId + 1,
    users := d.users ++ [{ id := d.nextId, username := username, email := email,
                           password := password, is_active := true,
                           is_superuser := false, groups := [] }] }

/-- Translation of `add_user` (source lines 146-158).  Duplicate username makes `create_user`
raise `IntegrityError`, re-raised as `CalamariUserError`; otherwise the row is
created and `assign_role` is called with role `read/write`. -/
def add_user (d : Directory) (username email password : String) : OpResult :=
  if (getUser d username).isSome then
    { dir := d, err := some (.calamariUserError "column username is not unique"),
      logs := ["User with username " ++ username ++ " already exists"] }
  else
    assign_role (create_user d username email password) username "read/write"

/-- Translation of `change_user_active_status` (source lines 169-180).  Note: the source's
`try` catches only `IntegrityError`; `objects.get` on a missing username
raises `DoesNotExist`, which that clause does not catch, so it escapes the
function uncaught and unlogged (the `IntegrityError` arm is dead code here,
since neither `get` nor this `save` violates a constraint). -/
def change_user_active_status (d : Directory) (username : String) (active : Bool) : OpResult :=
  match getUser d username with
  | none =>
      { dir := d, err := some (.doesNotExist "User matching query does not exist."), logs := [] }
  | some user =>
      { dir := saveUser d { user with is_active := active }, err := none, logs := [] }

/-- Translation of `disable_user` (source lines 161-162). -/
def disable_user (d : Directory) (username : String) : OpResult :=
  change_user_active_status d username false

/-- Translation of `enable_user` (source lines 165-166). -/
def enable_user (d : Directory) (username : String) : OpResult :=
  change_user_active_status d username true

/-- Translation of `rename_user` (source lines 291-304).  Every outcome other than a
successful rename is only logged; no exception escapes. -/
def rename_user (d : Directory) (username new_username : String) : OpResult :=
  match getUser d new_username with
  | some _ =>
      { dir := d, err := none,
        logs := ["New username " ++ new_username ++ " is already in use."] }
  | none =>
      match getUser d username with
      | some user =>
          { dir := saveUser d { user with username := new_username }, err := none, logs := [] }
      | none =>
          { dir := d, err := none, logs := ["User " ++ username ++ " does not exist."] }

/-- Model of `Group.objects.get_or_create(name=...)`. -/
def get_or_create_role (d : Directory) (name : String) : Directory :=
  if d.roles.contains name then d else { d with roles := d.roles ++ [name] }

/-- Translation of `create_default_roles` (source lines 112-115). -/
def create_default_roles (d : Directory) : Directory :=
  get_or_create_role (get_or_create_role d "readonly") "read/write"

/-- Model of `user_model.objects.create_superuser(...)`: fresh active superuser row. -/
def create_superuser (d : Directory) (username password email : String) : Directory :=
  { d with
    nextId := d.nextId + 1,
    users := d.users ++ [{ id := d.nextId, username := username, email := email,
                           password := password, is_active := true,
                           is_superuser := true, groups := [] }] }

/-- Python truthiness of an optional command-line string: absent (`None`) and
the empty string are falsy. -/
def truthy : Option String → Bool
  | none => false
  | some s => !s.isEmpty

/-- The guidance text printed when no admin account exists (lines 197-200). -/
def admin_guidance : String :=
  "You have not created an admin account for calamari."

/-- Translation of `create_admin_users` (source lines 183-200).  Returns the directory,
the `log.info` messages, and whether a superuser row was created (this flag
drives the `seedAdmin` trace event of `initialize`).  The superuser is
created only when username, password and email are all supplied (truthy) and
no row with that username exists; otherwise, when no superuser exists at
all, the how-to-create-one-later guidance is printed.  No path raises. -/
def create_admin_users (d : Directory)
    (admin_username admin_password admin_email : Option String) :
    Directory × List String × Bool :=
  if truthy admin_username && truthy admin_password && truthy admin_email then
    if d.users.any (fun u => u.username == admin_username.getD "") then
      (d, [], false)
    else
      (create_superuser d (admin_username.getD "") (admin_password.getD "") (admin_email.getD ""),
       ["Creating user " ++ admin_username.getD ""], true)
  else
    if d.users.any (fun u => u.is_superuser) then (d, [], false)
    else (d, [admin_guidance], false)

/-- The subcommand handlers `main` dispatches to (source lines 347-387);
`args.func` values. -/
inductive CmdFunc
  | init
  | add_user
  | assign_role
  | change_password
  | disable_user
  | enable_user
  | rename_user
  | clear
deriving DecidableEq, Repr

/-- Model of `traceback.format_exc()`, abstracted: a formatted trace naming the
exception. -/
def format_exc : PyError → String
  | .calamariUserError m => "Traceback: CalamariUserError: " ++ m
  | .doesNotExist m => "Traceback: DoesNotExist: " ++ m
  | .runtimeError m => "Traceback: RuntimeError: " ++ m

/-- The crash-report JSON document (source lines 402-406): original argv,
the full verbose log transcript, and the formatted stack trace. -/
structure CrashReport where
  argv : List String
  log : String
  backtrace : String
deriving DecidableEq, Repr

/-- Outcome of the `main` top-level handler: the process exit status and the
crash report (with the path it was written to), if one was written. -/
structure MainResult where
  exitStatus : Nat
  crashReport : Option (String × CrashReport)
deriving DecidableEq, Repr

/-- The `try/except` around the dispatched command in `main` (source lines
391-408).  `exc` is the exception escaping `args.func(args)` (`none` when it
returned normally).  A `CalamariUserError` from `assign_role` or `add_user`
gives `sys.exit(1)` before any report is written; every other exception gets
the crash report written to `/tmp/<timestamp>.txt`, after which `main`
returns normally (exit status 0). -/
def main_outcome (func : CmdFunc) (exc : Option PyError) (argv : List String)
    (log_transcript ts : String) : MainResult :=
  match exc with
  | none => { exitStatus := 0, crashReport := none }
  | some e =>
      if (func == CmdFunc.assign_role || func == CmdFunc.add_user) && isUserError e then
        { exitStatus := 1, crashReport := none }
      else
        { exitStatus := 0,
          crashReport := some ("/tmp/" ++ ts ++ ".txt",
            { argv := argv, log := log_transcript, backtrace := format_exc e }) }

/-! ## The `initialize` command

`initialize` (source lines 203-273) performs a linear sequence of
side-effecting steps against the filesystem, the versioned (cthulhu/alembic)
schema store, and the Django store.  We record each side-effecting step that
actually runs as an `Event` in a trace, model the stores in a `World`, and
model each fallible external collaborator through the `Ext` oracle.  A step
that raises aborts the rest of the sequence (Python exception propagation);
the partial trace is preserved in the error outcome. -/

/-- The side-effecting steps of `initialize` (and `setup_supervisor`), in
trace order.  An event is recorded when the corresponding action is
attempted (for external commands, the process is spawned even if it then
reports failure). -/
inductive Event
  | writeSecretKey
  | alembicUpgrade
  | schemaCreateAll
  | alembicStamp
  | syncdb
  | seedRoles
  | seedAdmin
  | collectstatic
  | chownLog
  | opensslGen
  | chmodCert
  | stopSupervisord
  | disableSupervisord
  | stopSupervisor
  | disableSupervisor
  | enableCalamari
  | restartCalamari
  | setMemoryLimit
deriving DecidableEq, Repr, Fintype

/-- One file on disk: content, permission bits, owner. -/
structure FileData where
  content : String
  mode : Nat
  uid : Nat
  gid : Nat
deriving DecidableEq, Repr

/-- The mutable stores `initialize` touches: the filesystem, the cthulhu
(versioned) schema store (`dbTables` is what `Base.metadata.reflect` sees;
`alembicVersion` the migration marker's revision), the Django user
directory, the system password database (`pwd.getpwnam`), and the stream of
random characters `get_random_string` draws from. -/
structure World where
  fs : String → Option FileData
  dbTables : List String
  alembicVersion : Option String
  ddir : Directory
  pwents : String → Option (Nat × Nat)
  seed : Nat → Nat

/-- The configuration values `initialize` reads (`config.get(...)`,
spec's ConfigurationSource). -/
structure Config where
  secret_key_path : String
  ssl_key : String
  ssl_cert : String
  log_path : String
  username : String
deriving DecidableEq, Repr

/-- Success/failure oracle for the external collaborators, plus the
permission bits the certificate generator gives the files it writes. -/
structure Ext where
  upgradeOk : Bool
  createAllOk : Bool
  stampOk : Bool
  syncdbOk : Bool
  collectstaticOk : Bool
  opensslOk : Bool
  opensslKeyMode : Nat
  opensslCertMode : Nat
  stopSupervisordOk : Bool
  disableSupervisordOk : Bool
  stopSupervisorOk : Bool
  disableSupervisorOk : Bool
  enableOk : Bool
  restartOk : Bool
  setPropOk : Bool

/-- Command-line arguments of the `initialize` subcommand. -/
structure InitArgs where
  admin_username : Option String
  admin_password : Option String
  admin_email : Option String

/-- Running state of one `initialize` invocation: the world plus the trace of
side-effecting steps performed so far. -/
structure St where
  w : World
  tr : List Event

/-- Write primitive: `setFile w p f` is the world after writing file `f` at path `p`. -/
def setFile (w : World) (path : String) (f : FileData) : World :=
  { w with fs := fun q => if q = path then some f else w.fs q }

/-- Constant `ALEMBIC_TABLE` (source line 64). -/
def ALEMBIC_TABLE : String := "alembic_version"

/-- The fixed secret-key alphabet (source line 219). -/
def secret_chars : String := "abcdefghijklmnopqrstuvwxyz0123456789!@#$%^&*(-_=+)"

/-- Model of `django.utils.crypto.get_random_string(n, allowed_chars)`: a string of
`n` characters drawn from `allowed_chars`; the draws are supplied by the
`seed` stream (index `i` picks `allowed_chars[seed i mod length]`). -/
def get_random_string (n : Nat) (allowed_chars : String) (seed : Nat → Nat) : String :=
  String.mk ((List.range n).map fun i =>
    allowed_chars.toList.getD (seed i % allowed_chars.toList.length) 'a')

/-- The tables `Base.metadata.create_all` creates (the declared model:
sync objects, servers, services, events — source lines 22-25). -/
def modelTables : List String := ["sync_object", "server", "service", "event"]

/-- Secret-key bootstrap (source lines 214-220): write a fresh 50-character
random string to the secret-key file only when that file does not exist.
The written file's mode is the process default for `open(..., 'w')`. -/
def ensure_secret_key (cfg : Config) (s : St) : St :=
  if (s.w.fs cfg.secret_key_path).isSome then s
  else
    { w := setFile s.w cfg.secret_key_path
        { content := get_random_string 50 secret_chars s.w.seed,
          mode := 0o644, uid := 0, gid := 0 },
      tr := s.tr ++ [Event.writeSecretKey] }

/-- Schema reconciliation (source lines 222-235): if the version-marker
relation is among the reflected tables, run `command.upgrade(cfg, "head")`;
otherwise `Base.metadata.create_all` then `command.stamp(cfg, "head")`.
Either alembic command leaves the marker at the latest revision `head`;
`stamp` also creates the marker relation. -/
def reconcile (ext : Ext) (s : St) : Except St St :=
  if ALEMBIC_TABLE ∈ s.w.dbTables then
    if ext.upgradeOk then
      .ok { w := { s.w with alembicVersion := some "head" },
            tr := s.tr ++ [Event.alembicUpgrade] }
    else .error { s with tr := s.tr ++ [Event.alembicUpgrade] }
  else
    if ext.createAllOk then
      let w := { s.w with dbTables := s.w.dbTables ++ modelTables }
      if ext.stampOk then
        let w2 := { w with dbTables := w.dbTables ++ [ALEMBIC_TABLE],
                           alembicVersion := some "head" }
        .ok { w := w2, tr := s.tr ++ [Event.schemaCreateAll, Event.alembicStamp] }
      else .error { w := w, tr := s.tr ++ [Event.schemaCreateAll, Event.alembicStamp] }
    else .error { s with tr := s.tr ++ [Event.schemaCreateAll] }

/-- A fallible external step with no modelled state effect beyond its event
(used for `syncdb` and `collectstatic`, source lines 240-241 and 248-249). -/
def run_external (okFlag : Bool) (ev : Event) (s : St) : Except St St :=
  if okFlag then .ok { s with tr := s.tr ++ [ev] }
  else .error { s with tr := s.tr ++ [ev] }

/-- Default-role seeding step (source line 243). -/
def roles_step (s : St) : St :=
  { w := { s.w with ddir := create_default_roles s.w.ddir },
    tr := s.tr ++ [Event.seedRoles] }

/-- Admin-account seeding step (source line 244). -/
def admin_step (args : InitArgs) (s : St) : St :=
  let r := create_admin_users s.w.ddir args.admin_username args.admin_password args.admin_email
  { w := { s.w with ddir := r.1 },
    tr := s.tr ++ (if r.2.2 then [Event.seedAdmin] else []) }

/-- Ownership fix (source lines 253-254): `pwd.getpwnam` the service
account (KeyError when absent — no chown is then attempted), then
`os.chown` the log file to it (OSError when the file is missing). -/
def chown_log (cfg : Config) (s : St) : Except St St :=
  match s.w.pwents cfg.username with
  | none => .error s
  | some ug =>
      match s.w.fs cfg.log_path with
      | none => .error { s with tr := s.tr ++ [Event.chownLog] }
      | some f =>
          .ok { w := setFile s.w cfg.log_path { f with uid := ug.1, gid := ug.2 },
                tr := s.tr ++ [Event.chownLog] }

/-- TLS bootstrap (source lines 256-267): only when the key file does not
exist, run openssl (writing the self-signed key and certificate with the
generator's permission bits), then `os.chmod` the certificate to `0644`. -/
def ensure_tls (cfg : Config) (ext : Ext) (s : St) : Except St St :=
  if (s.w.fs cfg.ssl_key).isSome then .ok s
  else
    if ext.opensslOk then
      let w := setFile s.w cfg.ssl_key
        { content := "PRIVATE KEY", mode := ext.opensslKeyMode, uid := 0, gid := 0 }
      let w := setFile w cfg.ssl_cert
        { content := "CERTIFICATE", mode := ext.opensslCertMode, uid := 0, gid := 0 }
      match w.fs cfg.ssl_cert with
      | some f =>
          .ok { w := setFile w cfg.ssl_cert { f with mode := 0o644 },
                tr := s.tr ++ [Event.opensslGen, Event.chmodCert] }
      | none => .error { w := w, tr := s.tr ++ [Event.opensslGen, Event.chmodCert] }
    else .error { s with tr := s.tr ++ [Event.opensslGen] }

/-- Translation of `setup_supervisor` (source lines 97-109), as the sequence of systemctl
invocations it attempts.  The four legacy stop/disable commands sit inside a
single `try` whose `except RuntimeError: pass` swallows the first failure —
so the commands after a failing one are NOT attempted, but nothing
propagates and control continues to the fail-fast target-service commands
(enable, restart, set-property).  Returns the attempted commands; `.error`
when a fail-fast command failed (RuntimeError escaping to the caller). -/
def setup_supervisor (ext : Ext) : Except (List Event) (List Event) :=
  let legacy :=
    if ext.stopSupervisordOk = false then
      [Event.stopSupervisord]
    else if ext.disableSupervisordOk = false then
      [Event.stopSupervisord, Event.disableSupervisord]
    else if ext.stopSupervisorOk = false then
      [Event.stopSupervisord, Event.disableSupervisord, Event.stopSupervisor]
    else
      [Event.stopSupervisord, Event.disableSupervisord, Event.stopSupervisor,
       Event.disableSupervisor]
  if ext.enableOk then
    if ext.restartOk then
      if ext.setPropOk then
        .ok (legacy ++ [Event.enableCalamari, Event.restartCalamari, Event.setMemoryLimit])
      else
        .error (legacy ++ [Event.enableCalamari, Event.restartCalamari, Event.setMemoryLimit])
    else .error (legacy ++ [Event.enableCalamari, Event.restartCalamari])
  else .error (legacy ++ [Event.enableCalamari])

/-- The commands attempted by a `setup_supervisor` call, whether or not it
raised. -/
def supTrace : Except (List Event) (List Event) → List Event
  | .ok evs => evs
  | .error evs => evs

/-- Did `setup_supervisor` return without raising? -/
def supOk : Except (List Event) (List Event) → Bool
  | .ok _ => true
  | .error _ => false

/-- The `setup_supervisor()` call inside `initialize` (source line 271). -/
def supervisor_step (ext : Ext) (s : St) : Except St St :=
  match setup_supervisor ext with
  | .ok evs => .ok { s with tr := s.tr ++ evs }
  | .error evs => .error { s with tr := s.tr ++ evs }

/-- Sequencing of two steps with Python exception propagation: if `f`
raises, `g` never runs. -/
def seqSt (f g : St → Except St St) (s : St) : Except St St :=
  match f s with
  | .error s₁ => .error s₁
  | .ok s₁ => g s₁

/-- Lift an infallible step. -/
def liftSt (f : St → St) (s : St) : Except St St := .ok (f s)

/-- The tail of `initialize` from the TLS bootstrap on (source lines 256+). -/
def from_tls (cfg : Config) (ext : Ext) : St → Except St St :=
  seqSt (ensure_tls cfg ext) (supervisor_step ext)

/-- The tail of `initialize` from the log-file chown on (source lines 253+). -/
def from_chown (cfg : Config) (ext : Ext) : St → Except St St :=
  seqSt (chown_log cfg) (from_tls cfg ext)

/-- The tail of `initialize` from `collectstatic` on (source lines 248+). -/
def from_collect (cfg : Config) (ext : Ext) : St → Except St St :=
  seqSt (run_external ext.collectstaticOk Event.collectstatic) (from_chown cfg ext)

/-- The tail of `initialize` from admin seeding on (source lines 244+). -/
def from_admin (cfg : Config) (args : InitArgs) (ext : Ext) : St → Except St St :=
  seqSt (liftSt (admin_step args)) (from_collect cfg ext)

/-- The tail of `initialize` from default-role seeding on (source lines 243+). -/
def from_roles (cfg : Config) (args : InitArgs) (ext : Ext) : St → Except St St :=
  seqSt (liftSt roles_step) (from_admin cfg args ext)

/-- The tail of `initialize` from `syncdb` on (source lines 240+). -/
def from_syncdb (cfg : Config) (args : InitArgs) (ext : Ext) : St → Except St St :=
  seqSt (run_external ext.syncdbOk Event.syncdb) (from_roles cfg args ext)

/-- The tail of `initialize` from schema reconciliation on (source lines 222+). -/
def from_reconcile (cfg : Config) (args : InitArgs) (ext : Ext) : St → Except St St :=
  seqSt (reconcile ext) (from_syncdb cfg args ext)

/-- The whole `initialize` body as a step chain (source lines 203-273). -/
def init_chain (cfg : Config) (args : InitArgs) (ext : Ext) : St → Except St St :=
  seqSt (liftSt (ensure_secret_key cfg)) (from_reconcile cfg args ext)

/-- Translation of `initialize` (source lines 203-273): the full linear sequence, starting
from an empty trace.  Order as in the source: secret key (218-220), schema
reconciliation (222-235), `syncdb` (240-241), default roles (243), admin
seeding (244), `collectstatic` (248-249), log-file chown (253-254), TLS
bootstrap (256-267), supervisor setup (271). -/
def initialize_cmd (cfg : Config) (args : InitArgs) (ext : Ext) (w : World) : Except St St :=
  init_chain cfg args ext { w := w, tr := [] }

/-- The trace of steps performed by a run, successful or not. -/
def resTrace : Except St St → List Event
  | .ok s => s.tr
  | .error s => s.tr

/-- The filesystem after a run, successful or not. -/
def resFs : Except St St → String → Option FileData
  | .ok s => s.w.fs
  | .error s => s.w.fs

/-- Did the run succeed? -/
def isOkSt : Except St St → Bool
  | .ok _ => true
  | .error _ => false

/-- The world after a run, successful or not. -/
def resW : Except St St → World
  | .ok s => s.w
  | .error s => s.w

/-! ## Proof infrastructure -/

/-- Canonical position of each side-effecting step in the source order of
`initialize` (line numbers in parentheses): secret key (218), reconcile
(230/234-235), syncdb (241), roles (243), admin (244), collectstatic (249),
chown (254), TLS (260-267), supervisor (271 via 97-109).  The trace of any
run is strictly increasing in this rank. -/
def rank : Event → Nat
  | .writeSecretKey => 0
  | .alembicUpgrade => 1
  | .schemaCreateAll => 1
  | .alembicStamp => 2
  | .syncdb => 3
  | .seedRoles => 4
  | .seedAdmin => 5
  | .collectstatic => 6
  | .chownLog => 7
  | .opensslGen => 8
  | .chmodCert => 9
  | .stopSupervisord => 10
  | .disableSupervisord => 11
  | .stopSupervisor => 12
  | .disableSupervisor => 13
  | .enableCalamari => 14
  | .restartCalamari => 15
  | .setMemoryLimit => 16

/-- Predicate `appendsIn f lo hi`: every run of step `f` (successful or not) only
appends to the incoming trace, the appended events are strictly increasing in
`rank`, and their ranks lie in `[lo, hi)`. -/
def appendsIn (f : St → Except St St) (lo hi : Nat) : Prop :=
  ∀ s, ∃ evs, resTrace (f s) = s.tr ++ evs ∧
    evs.Pairwise (fun a b => rank a < rank b) ∧
    ∀ e ∈ evs, lo ≤ rank e ∧ rank e < hi

/-- Predicate `fsAgreesAt f p`: no run of step `f` changes the file at path `p`. -/
def fsAgreesAt (f : St → Except St St) (p : String) : Prop :=
  ∀ s, resFs (f s) p = s.w.fs p

/-- Predicate `dbAgrees f`: a successful run of step `f` leaves the versioned store
(tables and migration marker) untouched. -/
def dbAgrees (f : St → Except St St) : Prop :=
  ∀ s s', f s = .ok s' → s'.w.dbTables = s.w.dbTables ∧
    s'.w.alembicVersion = s.w.alembicVersion

/-- Predicate `tlsUntouched cfg f`: whenever the TLS key file exists at entry, running
`f` leaves both TLS files unchanged and performs no TLS generation step. -/
def tlsUntouched (cfg : Config) (f : St → Except St St) : Prop :=
  ∀ s, (s.w.fs cfg.ssl_key).isSome = true →
    resFs (f s) cfg.ssl_key = s.w.fs cfg.ssl_key ∧
    resFs (f s) cfg.ssl_cert = s.w.fs cfg.ssl_cert ∧
    ∃ evs, resTrace (f s) = s.tr ++ evs ∧
      Event.opensslGen ∉ evs ∧ Event.chmodCert ∉ evs

/-! ## Concrete instances used by witnesses and counterexamples -/

/-- An environment in which every external command succeeds. -/
def extAllOk : Ext :=
  { upgradeOk := true, createAllOk := true, stampOk := true, syncdbOk := true,
    collectstaticOk := true, opensslOk := true, opensslKeyMode := 0o600,
    opensslCertMode := 0o600, stopSupervisordOk := true, disableSupervisordOk := true,
    stopSupervisorOk := true, disableSupervisorOk := true, enableOk := true,
    restartOk := true, setPropOk := true }

/-- An environment in which only the first legacy supervisor stop command
fails (that supervisor variant is absent on the host). -/
def extLegacyFail : Ext :=
  { extAllOk with stopSupervisordOk := false }

/-- Arguments of `initialize` invoked with no admin flags. -/
def args_none : InitArgs :=
  { admin_username := none, admin_password := none, admin_email := none }

/-- A configuration with distinct, fixed paths. -/
def cfg0 : Config :=
  { secret_key_path := "/sk", ssl_key := "/key", ssl_cert := "/crt",
    log_path := "/log", username := "apache" }

/-- An empty user directory with the two default roles. -/
def dir0 : Directory := { nextId := 1, users := [], roles := ["readonly", "read/write"] }

/-- A directory holding one ordinary user `bob` and the default roles. -/
def dirBob : Directory :=
  { nextId := 2,
    users := [{ id := 1, username := "bob", email := "b@x", password := "pw",
                is_active := true, is_superuser := false, groups := ["readonly"] }],
    roles := ["readonly", "read/write"] }

/-- A world whose versioned store already carries the migration marker, with
the secret key present, the log file present, the TLS pair absent, and the
service account known (a previously initialized host before this upgrade). -/
def w_marker : World :=
  { fs := fun q =>
      if q = "/sk" then some { content := "k", mode := 0o600, uid := 0, gid := 0 }
      else if q = "/log" then some { content := "", mode := 0o644, uid := 0, gid := 0 }
      else none,
    dbTables := ["alembic_version"], alembicVersion := some "rev1", ddir := dirBob,
    pwents := fun u => if u = "apache" then some (48, 48) else none,
    seed := fun _ => 0 }

/-- A completely fresh world: empty versioned store, no secret material, the
log file present, the service account known, an empty directory. -/
def w_fresh : World :=
  { fs := fun q =>
      if q = "/log" then some { content := "", mode := 0o644, uid := 0, gid := 0 }
      else none,
    dbTables := [], alembicVersion := none, ddir := dir0,
    pwents := fun u => if u = "apache" then some (48, 48) else none,
    seed := fun i => i }


/-- A fully provisioned world: secret key, TLS pair, and log file present;
migration marker present (a host after a complete earlier initialization). -/
def w_prov : World :=
  { fs := fun q =>
      if q = "/sk" then some { content := "k", mode := 0o600, uid := 0, gid := 0 }
      else if q = "/key" then some { content := "K", mode := 0o600, uid := 0, gid := 0 }
      else if q = "/crt" then some { content := "C", mode := 0o644, uid := 0, gid := 0 }
      else if q = "/log" then some { content := "", mode := 0o644, uid := 0, gid := 0 }
      else none,
    dbTables := ["alembic_version"], alembicVersion := some "rev1", ddir := dirBob,
    pwents := fun u => if u = "apache" then some (48, 48) else none,
    seed := fun _ => 0 }

/-! ## Generic lemmas about step sequencing -/

theorem seqSt_lift (f : St → St) (g : St → Except St St) (s : St) :
    seqSt (liftSt f) g s = g (f s) := rfl

theorem seqSt_ok {f g : St → Except St St} {s s' : St}
    (h : seqSt f g s = .ok s') : ∃ s₁, f s = .ok s₁ ∧ g s₁ = .ok s' := by
  unfold seqSt at h
  cases hf : f s with
  | error s₁ => rw [hf] at h; cases h
  | ok s₁ => rw [hf] at h; exact ⟨s₁, rfl, h⟩

theorem resTrace_ok {r : Except St St} {s : St} (h : r = .ok s) : resTrace r = s.tr := by
  subst h; rfl

theorem appendsIn_mono {f : St → Except St St} {lo hi lo' hi' : Nat}
    (h : appendsIn f lo hi) (h1 : lo' ≤ lo) (h2 : hi ≤ hi') : appendsIn f lo' hi' := by
  intro s
  obtain ⟨evs, he, hp, hb⟩ := h s
  exact ⟨evs, he, hp, fun e hm =>
    ⟨le_trans h1 (hb e hm).1, lt_of_lt_of_le (hb e hm).2 h2⟩⟩

theorem appendsIn_seq {f g : St → Except St St} {lo mid hi : Nat}
    (hf : appendsIn f lo mid) (hg : appendsIn g mid hi)
    (hlm : lo ≤ mid) (hmh : mid ≤ hi) : appendsIn (seqSt f g) lo hi := by
  intro s
  obtain ⟨evs₁, he₁, hp₁, hb₁⟩ := hf s
  cases hfs : f s with
  | error s₁ =>
      rw [hfs] at he₁
      refine ⟨evs₁, ?_, hp₁, fun e hm =>
        ⟨(hb₁ e hm).1, lt_of_lt_of_le (hb₁ e hm).2 hmh⟩⟩
      show resTrace (seqSt f g s) = _
      unfold seqSt
      rw [hfs]
      exact he₁
  | ok s₁ =>
      rw [hfs] at he₁
      simp only [resTrace] at he₁
      obtain ⟨evs₂, he₂, hp₂, hb₂⟩ := hg s₁
      refine ⟨evs₁ ++ evs₂, ?_, ?_, ?_⟩
      · show resTrace (seqSt f g s) = _
        unfold seqSt
        rw [hfs, he₂, he₁, List.append_assoc]
      · refine List.pairwise_append.mpr ⟨hp₁, hp₂, fun a ha b hb => ?_⟩
        exact lt_of_lt_of_le (hb₁ a ha).2 (hb₂ b hb).1
      · intro e hm
        rcases List.mem_append.mp hm with h1 | h2
        · exact ⟨(hb₁ e h1).1, lt_of_lt_of_le (hb₁ e h1).2 hmh⟩
        · exact ⟨le_trans hlm (hb₂ e h2).1, (hb₂ e h2).2⟩

/-! ## Per-step trace lemmas -/

theorem secret_appendsIn (cfg : Config) :
    appendsIn (liftSt (ensure_secret_key cfg)) 0 1 := by
  intro s
  unfold liftSt ensure_secret_key
  by_cases h : (s.w.fs cfg.secret_key_path).isSome
  · exact ⟨[], by simp [resTrace, h], by simp, by simp⟩
  · exact ⟨[Event.writeSecretKey], by simp [resTrace, h], by simp, by decide⟩

theorem reconcile_appendsIn (ext : Ext) : appendsIn (reconcile ext) 1 3 := by
  intro s
  unfold reconcile
  by_cases hm : ALEMBIC_TABLE ∈ s.w.dbTables
  · cases hu : ext.upgradeOk
    · exact ⟨[Event.alembicUpgrade], by simp [resTrace, hm, hu], by simp, by decide⟩
    · exact ⟨[Event.alembicUpgrade], by simp [resTrace, hm, hu], by simp, by decide⟩
  · cases hc : ext.createAllOk
    · exact ⟨[Event.schemaCreateAll], by simp [resTrace, hm, hc], by simp, by decide⟩
    · cases hst : ext.stampOk
      · exact ⟨[Event.schemaCreateAll, Event.alembicStamp],
          by simp [resTrace, hm, hc, hst], by decide, by decide⟩
      · exact ⟨[Event.schemaCreateAll, Event.alembicStamp],
          by simp [resTrace, hm, hc, hst], by decide, by decide⟩

theorem run_external_appendsIn (b : Bool) (ev : Event) :
    appendsIn (run_external b ev) (rank ev) (rank ev + 1) := by
  intro s
  unfold run_external
  cases b
  · exact ⟨[ev], by simp [resTrace], by simp, by simp⟩
  · exact ⟨[ev], by simp [resTrace], by simp, by simp⟩

theorem roles_appendsIn : appendsIn (liftSt roles_step) 4 5 := by
  intro s
  exact ⟨[Event.seedRoles], by simp [resTrace, liftSt, roles_step], by simp, by decide⟩

theorem admin_appendsIn (args : InitArgs) : appendsIn (liftSt (admin_step args)) 5 6 := by
  intro s
  unfold liftSt admin_step
  by_cases h : (create_admin_users s.w.ddir args.admin_username args.admin_password
      args.admin_email).2.2
  · exact ⟨[Event.seedAdmin], by simp [resTrace, h], by simp, by decide⟩
  · exact ⟨[], by simp [resTrace, h], by simp, by simp⟩

theorem chown_appendsIn (cfg : Config) : appendsIn (chown_log cfg) 7 8 := by
  intro s
  unfold chown_log
  cases hpw : s.w.pwents cfg.username with
  | none => exact ⟨[], by simp [resTrace], by simp, by simp⟩
  | some ug =>
      cases hf : s.w.fs cfg.log_path with
      | none => exact ⟨[Event.chownLog], by simp [resTrace], by simp, by decide⟩
      | some f => exact ⟨[Event.chownLog], by simp [resTrace], by simp, by decide⟩

theorem tls_appendsIn (cfg : Config) (ext : Ext) : appendsIn (ensure_tls cfg ext) 8 10 := by
  intro s
  unfold ensure_tls
  by_cases hk : (s.w.fs cfg.ssl_key).isSome
  · exact ⟨[], by simp [resTrace, hk], by simp, by simp⟩
  · cases ho : ext.opensslOk
    · exact ⟨[Event.opensslGen], by simp [resTrace, hk, ho], by simp, by decide⟩
    · exact ⟨[Event.opensslGen, Event.chmodCert],
        by simp [resTrace, hk, ho, setFile], by decide, by decide⟩

theorem supervisor_appendsIn (ext : Ext) : appendsIn (supervisor_step ext) 10 17 := by
  intro s
  unfold supervisor_step setup_supervisor
  cases h1 : ext.stopSupervisordOk <;> cases h2 : ext.disableSupervisordOk <;>
    cases h3 : ext.stopSupervisorOk <;> cases hE : ext.enableOk <;>
      cases hR : ext.restartOk <;> cases hS : ext.setPropOk <;>
        simp only [h1, h2, h3, hE, hR, hS] <;>
          exact ⟨_, rfl, by decide, by decide⟩

/-! ## Chain trace lemmas -/

theorem from_tls_appendsIn (cfg : Config) (ext : Ext) :
    appendsIn (from_tls cfg ext) 8 17 :=
  appendsIn_seq (tls_appendsIn cfg ext) (supervisor_appendsIn ext)
    (by decide) (by decide)

theorem from_chown_appendsIn (cfg : Config) (ext : Ext) :
    appendsIn (from_chown cfg ext) 7 17 :=
  appendsIn_seq (chown_appendsIn cfg) (from_tls_appendsIn cfg ext)
    (by decide) (by decide)

theorem from_collect_appendsIn (cfg : Config) (ext : Ext) :
    appendsIn (from_collect cfg ext) 6 17 :=
  appendsIn_seq (run_external_appendsIn ext.collectstaticOk Event.collectstatic)
    (from_chown_appendsIn cfg ext) (by decide) (by decide)

theorem from_admin_appendsIn (cfg : Config) (args : InitArgs) (ext : Ext) :
    appendsIn (from_admin cfg args ext) 5 17 :=
  appendsIn_seq (admin_appendsIn args) (from_collect_appendsIn cfg ext)
    (by decide) (by decide)

theorem from_roles_appendsIn (cfg : Config) (args : InitArgs) (ext : Ext) :
    appendsIn (from_roles cfg args ext) 4 17 :=
  appendsIn_seq roles_appendsIn (from_admin_appendsIn cfg args ext)
    (by decide) (by decide)

theorem from_syncdb_appendsIn (cfg : Config) (args : InitArgs) (ext : Ext) :
    appendsIn (from_syncdb cfg args ext) 3 17 :=
  appendsIn_seq (run_external_appendsIn ext.syncdbOk Event.syncdb)
    (from_roles_appendsIn cfg args ext) (by decide) (by decide)

theorem from_reconcile_appendsIn (cfg : Config) (args : InitArgs) (ext : Ext) :
    appendsIn (from_reconcile cfg args ext) 1 17 :=
  appendsIn_seq (reconcile_appendsIn ext) (from_syncdb_appendsIn cfg args ext)
    (by decide) (by decide)

theorem init_chain_appendsIn (cfg : Config) (args : InitArgs) (ext : Ext) :
    appendsIn (init_chain cfg args ext) 0 17 :=
  appendsIn_seq (secret_appendsIn cfg) (from_reconcile_appendsIn cfg args ext)
    (by decide) (by decide)

/-- A successful `setup_supervisor` call restarted the target service. -/
theorem supervisor_ok_restart {ext : Ext} {s s₁ : St}
    (h : supervisor_step ext s = .ok s₁) : Event.restartCalamari ∈ s₁.tr := by
  unfold supervisor_step setup_supervisor at h
  cases h1 : ext.stopSupervisordOk <;> cases h2 : ext.disableSupervisordOk <;>
    cases h3 : ext.stopSupervisorOk <;> cases hE : ext.enableOk <;>
      cases hR : ext.restartOk <;> cases hS : ext.setPropOk <;>
        simp [h1, h2, h3, hE, hR, hS] at h <;> (subst h; simp)

/-! ## Claim C2 -/

/-- C2 (corrected): in every successful `initialize` run the side-effecting
steps occur in the source's linear order — secret key ensured, then schema
reconciliation, then secondary-schema sync, then default-role seeding, then
admin-account seeding, then static-asset collection, then the ownership fix
of the log file, then the credential (TLS) bootstrap, then the service
restart.  The trace is strictly increasing in `rank`, which encodes exactly
that order; in particular the ownership fix completes before the TLS
credential bootstrap — not after it, as the claim stated — and the TLS
bootstrap completes before the service restart, which a successful run
always performed. -/
theorem C2_initialize_order (cfg : Config) (args : InitArgs) (ext : Ext) (w : World)
    (h : isOkSt (initialize_cmd cfg args ext w) = true) :
    (resTrace (initialize_cmd cfg args ext w)).Pairwise (fun a b => rank a < rank b) ∧
    Event.restartCalamari ∈ resTrace (initialize_cmd cfg args ext w) := by
  cases hr : initialize_cmd cfg args ext w with
  | error s => rw [hr] at h; simp [isOkSt] at h
  | ok s =>
      have h' : init_chain cfg args ext { w := w, tr := [] } = .ok s := hr
      constructor
      · obtain ⟨evs, he, hp, _⟩ := init_chain_appendsIn cfg args ext { w := w, tr := [] }
        rw [h'] at he
        simp only [resTrace, List.nil_append] at he
        simpa [resTrace, he] using hp
      · unfold init_chain at h'
        obtain ⟨s1, _, h'⟩ := seqSt_ok h'
        unfold from_reconcile at h'
        obtain ⟨s2, _, h'⟩ := seqSt_ok h'
        unfold from_syncdb at h'
        obtain ⟨s3, _, h'⟩ := seqSt_ok h'
        unfold from_roles at h'
        obtain ⟨s4, _, h'⟩ := seqSt_ok h'
        unfold from_admin at h'
        obtain ⟨s5, _, h'⟩ := seqSt_ok h'
        unfold from_collect at h'
        obtain ⟨s6, _, h'⟩ := seqSt_ok h'
        unfold from_chown at h'
        obtain ⟨s7, _, h'⟩ := seqSt_ok h'
        unfold from_tls at h'
        obtain ⟨s8, _, h'⟩ := seqSt_ok h'
        simpa [resTrace] using supervisor_ok_restart h'

/-- Witness for C2: the amended order theorem applied to a concrete
successful run (already-initialized host, TLS pair absent). -/
theorem C2_initialize_order_witness :
    isOkSt (initialize_cmd cfg0 args_none extAllOk w_marker) = true ∧
    ((resTrace (initialize_cmd cfg0 args_none extAllOk w_marker)).Pairwise
        (fun a b => rank a < rank b) ∧
      Event.restartCalamari ∈ resTrace (initialize_cmd cfg0 args_none extAllOk w_marker)) :=
  ⟨by decide, C2_initialize_order cfg0 args_none extAllOk w_marker (by decide)⟩

/-- Counterexample to C2 as stated: on a concrete successful run the
ownership fix (`chownLog`) happens strictly before the TLS credential
bootstrap (`opensslGen`), so the claimed "credential (TLS) bootstrap, then
ownership fix" order is false. -/
theorem C2_initialize_order_cex :
    isOkSt (initialize_cmd cfg0 args_none extAllOk w_marker) = true ∧
    Event.chownLog ∈ resTrace (initialize_cmd cfg0 args_none extAllOk w_marker) ∧
    Event.opensslGen ∈ resTrace (initialize_cmd cfg0 args_none extAllOk w_marker) ∧
    ¬ (resTrace (initialize_cmd cfg0 args_none extAllOk w_marker)).indexOf Event.opensslGen <
        (resTrace (initialize_cmd cfg0 args_none extAllOk w_marker)).indexOf Event.chownLog := by
  decide

/-! ## Preservation of the versioned store by the post-reconcile steps -/

theorem dbAgrees_seq {f g : St → Except St St}
    (hf : dbAgrees f) (hg : dbAgrees g) : dbAgrees (seqSt f g) := by
  intro s s₂ h
  obtain ⟨s₁, h1, h2⟩ := seqSt_ok h
  obtain ⟨a1, b1⟩ := hf s s₁ h1
  obtain ⟨a2, b2⟩ := hg s₁ s₂ h2
  exact ⟨a2.trans a1, b2.trans b1⟩

theorem run_external_dbAgrees (b : Bool) (ev : Event) : dbAgrees (run_external b ev) := by
  intro s s₂ h
  unfold run_external at h
  cases b <;> simp at h
  subst h
  exact ⟨rfl, rfl⟩

theorem roles_dbAgrees : dbAgrees (liftSt roles_step) := by
  intro s s₂ h
  simp [liftSt] at h
  subst h
  exact ⟨rfl, rfl⟩

theorem admin_dbAgrees (args : InitArgs) : dbAgrees (liftSt (admin_step args)) := by
  intro s s₂ h
  simp [liftSt] at h
  subst h
  exact ⟨rfl, rfl⟩

theorem chown_dbAgrees (cfg : Config) : dbAgrees (chown_log cfg) := by
  intro s s₂ h
  unfold chown_log at h
  cases hpw : s.w.pwents cfg.username with
  | none => rw [hpw] at h; cases h
  | some ug =>
      rw [hpw] at h
      cases hf : s.w.fs cfg.log_path with
      | none => rw [hf] at h; cases h
      | some f =>
          rw [hf] at h
          simp at h
          subst h
          exact ⟨rfl, rfl⟩

theorem tls_dbAgrees (cfg : Config) (ext : Ext) : dbAgrees (ensure_tls cfg ext) := by
  intro s s₂ h
  unfold ensure_tls at h
  by_cases hk : (s.w.fs cfg.ssl_key).isSome
  · simp [hk] at h
    subst h
    exact ⟨rfl, rfl⟩
  · cases ho : ext.opensslOk
    · simp [hk, ho] at h
    · simp [hk, ho, setFile] at h
      subst h
      exact ⟨rfl, rfl⟩

theorem supervisor_dbAgrees (ext : Ext) : dbAgrees (supervisor_step ext) := by
  intro s s₂ h
  unfold supervisor_step at h
  cases hs : setup_supervisor ext with
  | error evs => rw [hs] at h; cases h
  | ok evs =>
      rw [hs] at h
      simp at h
      subst h
      exact ⟨rfl, rfl⟩

theorem from_syncdb_dbAgrees (cfg : Config) (args : InitArgs) (ext : Ext) :
    dbAgrees (from_syncdb cfg args ext) :=
  dbAgrees_seq (run_external_dbAgrees ext.syncdbOk Event.syncdb)
    (dbAgrees_seq roles_dbAgrees
      (dbAgrees_seq (admin_dbAgrees args)
        (dbAgrees_seq (run_external_dbAgrees ext.collectstaticOk Event.collectstatic)
          (dbAgrees_seq (chown_dbAgrees cfg)
            (dbAgrees_seq (tls_dbAgrees cfg ext) (supervisor_dbAgrees ext))))))

/-- The secret-key step touches only the filesystem. -/
theorem ensure_secret_key_db (cfg : Config) (s : St) :
    (ensure_secret_key cfg s).w.dbTables = s.w.dbTables ∧
    (ensure_secret_key cfg s).w.alembicVersion = s.w.alembicVersion := by
  unfold ensure_secret_key
  by_cases h : (s.w.fs cfg.secret_key_path).isSome <;> simp [h, setFile]

theorem not_mem_of_rank_lt {l : List Event} {e : Event} {k : Nat}
    (h : ∀ x ∈ l, rank x < k) (he : k ≤ rank e) : e ∉ l :=
  fun hm => absurd (h e hm) (not_lt.mpr he)

theorem not_mem_of_rank_ge {l : List Event} {e : Event} {k : Nat}
    (h : ∀ x ∈ l, k ≤ rank x) (he : rank e < k) : e ∉ l :=
  fun hm => absurd (h e hm) (not_le.mpr he)

/-! ## Claim C1 -/

/-- The reconcile-then-rest tail of `initialize`, specified against the
marker presence at its entry state.  `s₁` is the state after the secret-key
step, whose trace only holds rank-0 events. -/
theorem reconcile_chain_spec (cfg : Config) (args : InitArgs) (ext : Ext) (s₁ : St)
    (htr1 : ∀ e ∈ s₁.tr, rank e < 1) :
    (ALEMBIC_TABLE ∈ s₁.w.dbTables →
      Event.schemaCreateAll ∉ resTrace (seqSt (reconcile ext) (from_syncdb cfg args ext) s₁) ∧
      Event.alembicStamp ∉ resTrace (seqSt (reconcile ext) (from_syncdb cfg args ext) s₁) ∧
      (isOkSt (seqSt (reconcile ext) (from_syncdb cfg args ext) s₁) = true →
        Event.alembicUpgrade ∈ resTrace (seqSt (reconcile ext) (from_syncdb cfg args ext) s₁) ∧
        (resW (seqSt (reconcile ext) (from_syncdb cfg args ext) s₁)).alembicVersion =
          some "head")) ∧
    (ALEMBIC_TABLE ∉ s₁.w.dbTables →
      Event.alembicUpgrade ∉ resTrace (seqSt (reconcile ext) (from_syncdb cfg args ext) s₁) ∧
      (isOkSt (seqSt (reconcile ext) (from_syncdb cfg args ext) s₁) = true →
        (∃ l₁ l₂, resTrace (seqSt (reconcile ext) (from_syncdb cfg args ext) s₁) =
            l₁ ++ Event.schemaCreateAll :: Event.alembicStamp :: l₂) ∧
        (resW (seqSt (reconcile ext) (from_syncdb cfg args ext) s₁)).alembicVersion =
          some "head" ∧
        ALEMBIC_TABLE ∈ (resW (seqSt (reconcile ext) (from_syncdb cfg args ext) s₁)).dbTables)) := by
  constructor
  · intro hm
    cases hu : ext.upgradeOk
    · have hseq : seqSt (reconcile ext) (from_syncdb cfg args ext) s₁ =
          .error { w := s₁.w, tr := s₁.tr ++ [Event.alembicUpgrade] } := by
        unfold seqSt reconcile
        simp [hm, hu]
      rw [hseq]
      refine ⟨?_, ?_, ?_⟩
      · intro hmem
        rcases List.mem_append.mp hmem with h | h
        · exact not_mem_of_rank_lt htr1 (by decide) h
        · simp at h
      · intro hmem
        rcases List.mem_append.mp hmem with h | h
        · exact not_mem_of_rank_lt htr1 (by decide) h
        · simp at h
      · intro hok
        simp [isOkSt] at hok
    · have hseq : seqSt (reconcile ext) (from_syncdb cfg args ext) s₁ =
          from_syncdb cfg args ext
            { w := { s₁.w with alembicVersion := some "head" },
              tr := s₁.tr ++ [Event.alembicUpgrade] } := by
        unfold seqSt reconcile
        simp [hm, hu]
      rw [hseq]
      obtain ⟨evs, he, _, hb⟩ := from_syncdb_appendsIn cfg args ext
        { w := { s₁.w with alembicVersion := some "head" },
          tr := s₁.tr ++ [Event.alembicUpgrade] }
      refine ⟨?_, ?_, ?_⟩
      · rw [he]
        intro hmem
        rcases List.mem_append.mp hmem with h | h
        · rcases List.mem_append.mp h with h | h
          · exact not_mem_of_rank_lt htr1 (by decide) h
          · simp at h
        · exact not_mem_of_rank_ge (fun x hx => (hb x hx).1) (by decide) h
      · rw [he]
        intro hmem
        rcases List.mem_append.mp hmem with h | h
        · rcases List.mem_append.mp h with h | h
          · exact not_mem_of_rank_lt htr1 (by decide) h
          · simp at h
        · exact not_mem_of_rank_ge (fun x hx => (hb x hx).1) (by decide) h
      · intro hok
        cases hres : from_syncdb cfg args ext
            { w := { s₁.w with alembicVersion := some "head" },
              tr := s₁.tr ++ [Event.alembicUpgrade] } with
        | error s₂ => rw [hres] at hok; simp [isOkSt] at hok
        | ok s₂ =>
            rw [hres] at he
            constructor
            · simp only [resTrace] at he ⊢
              rw [he]
              exact List.mem_append.mpr (Or.inl (List.mem_append.mpr (Or.inr (by simp))))
            · have hdb := from_syncdb_dbAgrees cfg args ext _ s₂ hres
              simp only [resW]
              rw [hdb.2]
  · intro hm
    cases hc : ext.createAllOk
    · have hseq : seqSt (reconcile ext) (from_syncdb cfg args ext) s₁ =
          .error { w := s₁.w, tr := s₁.tr ++ [Event.schemaCreateAll] } := by
        unfold seqSt reconcile
        simp [hm, hc]
      rw [hseq]
      refine ⟨?_, ?_⟩
      · intro hmem
        rcases List.mem_append.mp hmem with h | h
        · exact not_mem_of_rank_lt htr1 (by decide) h
        · simp at h
      · intro hok
        simp [isOkSt] at hok
    · cases hst : ext.stampOk
      · have hseq : seqSt (reconcile ext) (from_syncdb cfg args ext) s₁ =
            .error { w := { s₁.w with dbTables := s₁.w.dbTables ++ modelTables },
                     tr := s₁.tr ++ [Event.schemaCreateAll, Event.alembicStamp] } := by
          unfold seqSt reconcile
          simp [hm, hc, hst]
        rw [hseq]
        refine ⟨?_, ?_⟩
        · intro hmem
          rcases List.mem_append.mp hmem with h | h
          · exact not_mem_of_rank_lt htr1 (by decide) h
          · simp at h
        · intro hok
          simp [isOkSt] at hok
      · have hseq : seqSt (reconcile ext) (from_syncdb cfg args ext) s₁ =
            from_syncdb cfg args ext
              { w := { s₁.w with
                        dbTables := s₁.w.dbTables ++ (modelTables ++ [ALEMBIC_TABLE]),
                        alembicVersion := some "head" },
                tr := s₁.tr ++ [Event.schemaCreateAll, Event.alembicStamp] } := by
          unfold seqSt reconcile
          simp [hm, hc, hst, List.append_assoc]
        rw [hseq]
        obtain ⟨evs, he, _, hb⟩ := from_syncdb_appendsIn cfg args ext
          { w := { s₁.w with
                    dbTables := s₁.w.dbTables ++ (modelTables ++ [ALEMBIC_TABLE]),
                    alembicVersion := some "head" },
            tr := s₁.tr ++ [Event.schemaCreateAll, Event.alembicStamp] }
        refine ⟨?_, ?_⟩
        · rw [he]
          intro hmem
          rcases List.mem_append.mp hmem with h | h
          · rcases List.mem_append.mp h with h | h
            · exact not_mem_of_rank_lt htr1 (by decide) h
            · simp at h
          · exact not_mem_of_rank_ge (fun x hx => (hb x hx).1) (by decide) h
        · intro hok
          cases hres : from_syncdb cfg args ext
              { w := { s₁.w with
                        dbTables := s₁.w.dbTables ++ (modelTables ++ [ALEMBIC_TABLE]),
                        alembicVersion := some "head" },
                tr := s₁.tr ++ [Event.schemaCreateAll, Event.alembicStamp] } with
          | error s₂ => rw [hres] at hok; simp [isOkSt] at hok
          | ok s₂ =>
              rw [hres] at he
              have hdb := from_syncdb_dbAgrees cfg args ext _ s₂ hres
              refine ⟨⟨s₁.tr, evs, ?_⟩, ?_, ?_⟩
              · simp only [resTrace] at he ⊢
                rw [he]
                simp
              · simp only [resW]
                rw [hdb.2]
              · simp only [resW]
                rw [hdb.1]
                simp

/-- C1 (confirmed): the schema-reconciliation decision of `initialize` is
made from the presence of the `alembic_version` marker relation.  When the
marker is absent, the run never performs a forward migration, and a
successful run created the full schema and then stamped the marker at the
latest revision (the trace holds `schemaCreateAll` immediately followed by
`alembicStamp`, and the final world carries the marker at `head`).  When the
marker is present, the run never performs full schema creation or stamping,
and a successful run applied forward migrations up to `head`. -/
theorem C1_reconcile_decision (cfg : Config) (args : InitArgs) (ext : Ext) (w : World) :
    (ALEMBIC_TABLE ∈ w.dbTables →
      Event.schemaCreateAll ∉ resTrace (initialize_cmd cfg args ext w) ∧
      Event.alembicStamp ∉ resTrace (initialize_cmd cfg args ext w) ∧
      (isOkSt (initialize_cmd cfg args ext w) = true →
        Event.alembicUpgrade ∈ resTrace (initialize_cmd cfg args ext w) ∧
        (resW (initialize_cmd cfg args ext w)).alembicVersion = some "head")) ∧
    (ALEMBIC_TABLE ∉ w.dbTables →
      Event.alembicUpgrade ∉ resTrace (initialize_cmd cfg args ext w) ∧
      (isOkSt (initialize_cmd cfg args ext w) = true →
        (∃ l₁ l₂, resTrace (initialize_cmd cfg args ext w) =
            l₁ ++ Event.schemaCreateAll :: Event.alembicStamp :: l₂) ∧
        (resW (initialize_cmd cfg args ext w)).alembicVersion = some "head" ∧
        ALEMBIC_TABLE ∈ (resW (initialize_cmd cfg args ext w)).dbTables)) := by
  have hR : initialize_cmd cfg args ext w =
      seqSt (reconcile ext) (from_syncdb cfg args ext)
        (ensure_secret_key cfg { w := w, tr := [] }) := rfl
  have htr1 : ∀ e ∈ (ensure_secret_key cfg { w := w, tr := [] }).tr, rank e < 1 := by
    obtain ⟨evs, he, _, hb⟩ := secret_appendsIn cfg { w := w, tr := [] }
    have he' : (ensure_secret_key cfg { w := w, tr := [] }).tr = evs := by
      simpa [resTrace, liftSt] using he
    intro e hm
    rw [he'] at hm
    exact (hb e hm).2
  have hdb := ensure_secret_key_db cfg { w := w, tr := [] }
  have hspec := reconcile_chain_spec cfg args ext
    (ensure_secret_key cfg { w := w, tr := [] }) htr1
  rw [hdb.1] at hspec
  rw [hR]
  exact hspec

/-- Witness for C1: both branches of the reconciliation decision at concrete
worlds — a previously initialized store (marker present, forward migration
runs) and a fresh store (marker absent, no forward migration runs). -/
theorem C1_reconcile_decision_witness :
    (ALEMBIC_TABLE ∈ w_marker.dbTables ∧
      isOkSt (initialize_cmd cfg0 args_none extAllOk w_marker) = true ∧
      (Event.alembicUpgrade ∈ resTrace (initialize_cmd cfg0 args_none extAllOk w_marker) ∧
        (resW (initialize_cmd cfg0 args_none extAllOk w_marker)).alembicVersion =
          some "head")) ∧
    (ALEMBIC_TABLE ∉ w_fresh.dbTables ∧
      Event.alembicUpgrade ∉ resTrace (initialize_cmd cfg0 args_none extAllOk w_fresh)) :=
  ⟨⟨by decide, by decide,
      ((C1_reconcile_decision cfg0 args_none extAllOk w_marker).1 (by decide)).2.2 (by decide)⟩,
   ⟨by decide,
      ((C1_reconcile_decision cfg0 args_none extAllOk w_fresh).2 (by decide)).1⟩⟩

/-! ## Filesystem preservation lemmas -/

theorem fsAgreesAt_seq {f g : St → Except St St} {p : String}
    (hf : fsAgreesAt f p) (hg : fsAgreesAt g p) : fsAgreesAt (seqSt f g) p := by
  intro s
  cases hfs : f s with
  | error s₁ =>
      have h1 := hf s
      rw [hfs] at h1
      show resFs (seqSt f g s) p = _
      unfold seqSt
      rw [hfs]
      exact h1
  | ok s₁ =>
      have h1 := hf s
      rw [hfs] at h1
      have h2 := hg s₁
      show resFs (seqSt f g s) p = _
      unfold seqSt
      rw [hfs, h2]
      simpa [resFs] using h1

theorem reconcile_fsAgrees (ext : Ext) (p : String) : fsAgreesAt (reconcile ext) p := by
  intro s
  unfold reconcile
  by_cases hm : ALEMBIC_TABLE ∈ s.w.dbTables <;>
    cases hu : ext.upgradeOk <;> cases hc : ext.createAllOk <;> cases hst : ext.stampOk <;>
      simp [hm, hu, hc, hst, resFs]

theorem run_external_fsAgrees (b : Bool) (ev : Event) (p : String) :
    fsAgreesAt (run_external b ev) p := by
  intro s
  unfold run_external
  cases b <;> simp [resFs]

theorem roles_fsAgrees (p : String) : fsAgreesAt (liftSt roles_step) p := by
  intro s
  simp [liftSt, roles_step, resFs]

theorem admin_fsAgrees (args : InitArgs) (p : String) :
    fsAgreesAt (liftSt (admin_step args)) p := by
  intro s
  simp [liftSt, admin_step, resFs]

theorem supervisor_fsAgrees (ext : Ext) (p : String) :
    fsAgreesAt (supervisor_step ext) p := by
  intro s
  unfold supervisor_step
  cases hs : setup_supervisor ext <;> simp [resFs]

theorem chown_fsAgrees (cfg : Config) (p : String) (hp : p ≠ cfg.log_path) :
    fsAgreesAt (chown_log cfg) p := by
  intro s
  unfold chown_log
  cases hpw : s.w.pwents cfg.username with
  | none => simp [resFs]
  | some ug =>
      cases hf : s.w.fs cfg.log_path with
      | none => simp [resFs]
      | some f => simp [resFs, setFile, hp]

theorem tls_fsAgrees (cfg : Config) (ext : Ext) (p : String)
    (hpk : p ≠ cfg.ssl_key) (hpc : p ≠ cfg.ssl_cert) :
    fsAgreesAt (ensure_tls cfg ext) p := by
  intro s
  unfold ensure_tls
  by_cases hk : (s.w.fs cfg.ssl_key).isSome
  · simp [hk, resFs]
  · cases ho : ext.opensslOk <;> simp [hk, ho, resFs, setFile, hpk, hpc]

theorem from_reconcile_fsAgrees (cfg : Config) (args : InitArgs) (ext : Ext) (p : String)
    (hl : p ≠ cfg.log_path) (hk : p ≠ cfg.ssl_key) (hc : p ≠ cfg.ssl_cert) :
    fsAgreesAt (from_reconcile cfg args ext) p :=
  fsAgreesAt_seq (reconcile_fsAgrees ext p)
    (fsAgreesAt_seq (run_external_fsAgrees ext.syncdbOk Event.syncdb p)
      (fsAgreesAt_seq (roles_fsAgrees p)
        (fsAgreesAt_seq (admin_fsAgrees args p)
          (fsAgreesAt_seq (run_external_fsAgrees ext.collectstaticOk Event.collectstatic p)
            (fsAgreesAt_seq (chown_fsAgrees cfg p hl)
              (fsAgreesAt_seq (tls_fsAgrees cfg ext p hk hc)
                (supervisor_fsAgrees ext p)))))))

/-! ## The generated secret string -/

theorem get_random_string_length (n : Nat) (chars : String) (seed : Nat → Nat) :
    (get_random_string n chars seed).length = n := by
  show ((List.range n).map _).length = n
  simp

theorem getD_mem_of_default_mem {l : List Char} {d : Char} (hd : d ∈ l) (i : Nat) :
    l.getD i d ∈ l := by
  cases hg : l[i]? with
  | none => simp [List.getD, hg, hd]
  | some x => simp [List.getD, hg, List.getElem?_mem hg]

theorem get_random_string_chars (n : Nat) (seed : Nat → Nat) :
    ∀ c ∈ (get_random_string n secret_chars seed).toList, c ∈ secret_chars.toList := by
  intro c hc
  obtain ⟨i, _, rfl⟩ := List.mem_map.mp hc
  exact getD_mem_of_default_mem (by decide) _

/-! ## Claim C5 -/

theorem resFs_eq (r : Except St St) (p : String) : resFs r p = (resW r).fs p := by
  cases r <;> rfl

/-- Behavior of a full `initialize` run at the secret-key path: untouched
when present, written exactly once (with the freshly drawn random string)
when absent. -/
theorem initialize_secret_spec (cfg : Config) (args : InitArgs) (ext : Ext) (w : World)
    (h1 : cfg.secret_key_path ≠ cfg.log_path)
    (h2 : cfg.secret_key_path ≠ cfg.ssl_key)
    (h3 : cfg.secret_key_path ≠ cfg.ssl_cert) :
    ((w.fs cfg.secret_key_path).isSome = true →
      resFs (initialize_cmd cfg args ext w) cfg.secret_key_path = w.fs cfg.secret_key_path ∧
      Event.writeSecretKey ∉ resTrace (initialize_cmd cfg args ext w)) ∧
    (w.fs cfg.secret_key_path = none →
      Event.writeSecretKey ∈ resTrace (initialize_cmd cfg args ext w) ∧
      resFs (initialize_cmd cfg args ext w) cfg.secret_key_path =
        some { content := get_random_string 50 secret_chars w.seed,
               mode := 0o644, uid := 0, gid := 0 }) := by
  have hR : initialize_cmd cfg args ext w =
      from_reconcile cfg args ext (ensure_secret_key cfg { w := w, tr := [] }) := rfl
  constructor
  · intro hpres
    have hid : ensure_secret_key cfg { w := w, tr := [] } = { w := w, tr := [] } := by
      unfold ensure_secret_key
      simp [hpres]
    rw [hR, hid]
    constructor
    · exact from_reconcile_fsAgrees cfg args ext _ h1 h2 h3 { w := w, tr := [] }
    · obtain ⟨evs, he, _, hb⟩ := from_reconcile_appendsIn cfg args ext { w := w, tr := [] }
      rw [he]
      intro hmem
      rcases List.mem_append.mp hmem with h | h
      · simp at h
      · exact not_mem_of_rank_ge (fun x hx => (hb x hx).1) (by decide) h
  · intro habs
    have hwr : ensure_secret_key cfg { w := w, tr := [] } =
        { w := setFile w cfg.secret_key_path
            { content := get_random_string 50 secret_chars w.seed,
              mode := 0o644, uid := 0, gid := 0 },
          tr := [Event.writeSecretKey] } := by
      unfold ensure_secret_key
      simp [habs]
    rw [hR, hwr]
    constructor
    · obtain ⟨evs, he, _, _⟩ := from_reconcile_appendsIn cfg args ext
        { w := setFile w cfg.secret_key_path
            { content := get_random_string 50 secret_chars w.seed,
              mode := 0o644, uid := 0, gid := 0 },
          tr := [Event.writeSecretKey] }
      rw [he]
      exact List.mem_append.mpr (Or.inl (by simp))
    · rw [from_reconcile_fsAgrees cfg args ext _ h1 h2 h3
        { w := setFile w cfg.secret_key_path
            { content := get_random_string 50 secret_chars w.seed,
              mode := 0o644, uid := 0, gid := 0 },
          tr := [Event.writeSecretKey] }]
      simp [setFile]

/-- C5 (confirmed): `initialize` writes the secret-key file only when it
does not exist; what it writes is a random string of exactly 50 characters
drawn from the fixed alphanumeric-plus-symbol alphabet; when the file
already exists no run touches it; and after any run the file exists, so a
repeated invocation (any admin flags, any environment) performs no
regenerative action on it. -/
theorem C5_secret_key (cfg : Config) (args : InitArgs) (ext : Ext) (w : World)
    (h1 : cfg.secret_key_path ≠ cfg.log_path)
    (h2 : cfg.secret_key_path ≠ cfg.ssl_key)
    (h3 : cfg.secret_key_path ≠ cfg.ssl_cert) :
    ((w.fs cfg.secret_key_path).isSome = true →
      resFs (initialize_cmd cfg args ext w) cfg.secret_key_path = w.fs cfg.secret_key_path ∧
      Event.writeSecretKey ∉ resTrace (initialize_cmd cfg args ext w)) ∧
    (w.fs cfg.secret_key_path = none →
      Event.writeSecretKey ∈ resTrace (initialize_cmd cfg args ext w) ∧
      ∃ f, resFs (initialize_cmd cfg args ext w) cfg.secret_key_path = some f ∧
        f.content = get_random_string 50 secret_chars w.seed ∧
        f.content.length = 50 ∧
        ∀ c ∈ f.content.toList, c ∈ secret_chars.toList) ∧
    (∀ args₂ ext₂,
      Event.writeSecretKey ∉
        resTrace (initialize_cmd cfg args₂ ext₂ (resW (initialize_cmd cfg args ext w)))) := by
  obtain ⟨hA, hB⟩ := initialize_secret_spec cfg args ext w h1 h2 h3
  refine ⟨hA, ?_, ?_⟩
  · intro habs
    obtain ⟨hmem, hfs⟩ := hB habs
    exact ⟨hmem, _, hfs, rfl, get_random_string_length _ _ _, get_random_string_chars _ _⟩
  · intro args₂ ext₂
    have hpres : ((resW (initialize_cmd cfg args ext w)).fs cfg.secret_key_path).isSome = true := by
      rw [← resFs_eq]
      cases hcase : w.fs cfg.secret_key_path with
      | some f =>
          rw [(hA (by rw [hcase]; rfl)).1, hcase]
          rfl
      | none =>
          rw [(hB hcase).2]
          rfl
    exact ((initialize_secret_spec cfg args₂ ext₂ _ h1 h2 h3).1 hpres).2

/-- Witness for C5: fresh world (key written) and already-provisioned world
(key untouched) under the concrete configuration. -/
theorem C5_secret_key_witness :
    (cfg0.secret_key_path ≠ cfg0.log_path ∧ cfg0.secret_key_path ≠ cfg0.ssl_key ∧
      cfg0.secret_key_path ≠ cfg0.ssl_cert) ∧
    (w_fresh.fs cfg0.secret_key_path = none ∧
      Event.writeSecretKey ∈ resTrace (initialize_cmd cfg0 args_none extAllOk w_fresh)) ∧
    ((w_marker.fs cfg0.secret_key_path).isSome = true ∧
      Event.writeSecretKey ∉ resTrace (initialize_cmd cfg0 args_none extAllOk w_marker)) :=
  ⟨⟨by decide, by decide, by decide⟩,
   ⟨by decide,
     ((C5_secret_key cfg0 args_none extAllOk w_fresh
        (by decide) (by decide) (by decide)).2.1 (by decide)).1⟩,
   ⟨by decide,
     ((C5_secret_key cfg0 args_none extAllOk w_marker
        (by decide) (by decide) (by decide)).1 (by decide)).2⟩⟩

/-! ## Claim C6 -/

theorem fs_ok_eq {f : St → Except St St} {p : String} (hf : fsAgreesAt f p) {s s₁ : St}
    (h : f s = .ok s₁) : s₁.w.fs p = s.w.fs p := by
  have h1 := hf s
  rw [h] at h1
  exact h1

/-- The secret-key step leaves every other path untouched. -/
theorem secret_fsAgrees (cfg : Config) (p : String) (hp : p ≠ cfg.secret_key_path) :
    fsAgreesAt (liftSt (ensure_secret_key cfg)) p := by
  intro s
  unfold liftSt ensure_secret_key
  by_cases h : (s.w.fs cfg.secret_key_path).isSome <;> simp [h, resFs, setFile, hp]

theorem tlsUntouched_seq {cfg : Config} {f g : St → Except St St} {lo hi : Nat}
    (hf1 : fsAgreesAt f cfg.ssl_key) (hf2 : fsAgreesAt f cfg.ssl_cert)
    (hf3 : appendsIn f lo hi)
    (hno : ∀ e : Event, lo ≤ rank e ∧ rank e < hi →
      e ≠ Event.opensslGen ∧ e ≠ Event.chmodCert)
    (hg : tlsUntouched cfg g) : tlsUntouched cfg (seqSt f g) := by
  intro s hs
  obtain ⟨evs₁, he₁, _, hb₁⟩ := hf3 s
  cases hfs : f s with
  | error s₁ =>
      have hseq : seqSt f g s = .error s₁ := by unfold seqSt; rw [hfs]
      have g1 := hf1 s
      have g2 := hf2 s
      rw [hfs] at g1 g2 he₁
      rw [hseq]
      exact ⟨g1, g2, evs₁, he₁,
        fun hm => (hno _ ⟨(hb₁ _ hm).1, (hb₁ _ hm).2⟩).1 rfl,
        fun hm => (hno _ ⟨(hb₁ _ hm).1, (hb₁ _ hm).2⟩).2 rfl⟩
  | ok s₁ =>
      have hseq : seqSt f g s = g s₁ := by unfold seqSt; rw [hfs]
      have g1 : s₁.w.fs cfg.ssl_key = s.w.fs cfg.ssl_key := fs_ok_eq hf1 hfs
      have g2 : s₁.w.fs cfg.ssl_cert = s.w.fs cfg.ssl_cert := fs_ok_eq hf2 hfs
      rw [hfs] at he₁
      simp only [resTrace] at he₁
      obtain ⟨gk, gc, evs₂, he₂, ho₂, hc₂⟩ := hg s₁ (by rw [g1]; exact hs)
      rw [hseq]
      refine ⟨gk.trans g1, gc.trans g2, evs₁ ++ evs₂, ?_, ?_, ?_⟩
      · rw [he₂, he₁, List.append_assoc]
      · intro hm
        rcases List.mem_append.mp hm with h | h
        · exact (hno _ ⟨(hb₁ _ h).1, (hb₁ _ h).2⟩).1 rfl
        · exact ho₂ h
      · intro hm
        rcases List.mem_append.mp hm with h | h
        · exact (hno _ ⟨(hb₁ _ h).1, (hb₁ _ h).2⟩).2 rfl
        · exact hc₂ h

theorem from_tls_tlsUntouched (cfg : Config) (ext : Ext) :
    tlsUntouched cfg (from_tls cfg ext) := by
  intro s hs
  have htls : ensure_tls cfg ext s = .ok s := by
    unfold ensure_tls
    simp [hs]
  have hseq : from_tls cfg ext s = supervisor_step ext s := by
    unfold from_tls seqSt
    rw [htls]
  rw [hseq]
  obtain ⟨evs, he, _, hb⟩ := supervisor_appendsIn ext s
  exact ⟨supervisor_fsAgrees ext _ s, supervisor_fsAgrees ext _ s, evs, he,
    not_mem_of_rank_ge (fun x hx => (hb x hx).1) (by decide),
    not_mem_of_rank_ge (fun x hx => (hb x hx).1) (by decide)⟩

theorem init_tlsUntouched (cfg : Config) (args : InitArgs) (ext : Ext)
    (hks : cfg.ssl_key ≠ cfg.secret_key_path) (hcs : cfg.ssl_cert ≠ cfg.secret_key_path)
    (hkl : cfg.ssl_key ≠ cfg.log_path) (hcl : cfg.ssl_cert ≠ cfg.log_path) :
    tlsUntouched cfg (init_chain cfg args ext) :=
  tlsUntouched_seq (secret_fsAgrees cfg _ hks) (secret_fsAgrees cfg _ hcs)
    (secret_appendsIn cfg) (by decide)
    (tlsUntouched_seq (reconcile_fsAgrees ext _) (reconcile_fsAgrees ext _)
      (reconcile_appendsIn ext) (by decide)
      (tlsUntouched_seq (run_external_fsAgrees ext.syncdbOk Event.syncdb _)
        (run_external_fsAgrees ext.syncdbOk Event.syncdb _)
        (run_external_appendsIn ext.syncdbOk Event.syncdb) (by decide)
        (tlsUntouched_seq (roles_fsAgrees _) (roles_fsAgrees _)
          roles_appendsIn (by decide)
          (tlsUntouched_seq (admin_fsAgrees args _) (admin_fsAgrees args _)
            (admin_appendsIn args) (by decide)
            (tlsUntouched_seq (run_external_fsAgrees ext.collectstaticOk Event.collectstatic _)
              (run_external_fsAgrees ext.collectstaticOk Event.collectstatic _)
              (run_external_appendsIn ext.collectstaticOk Event.collectstatic) (by decide)
              (tlsUntouched_seq (chown_fsAgrees cfg _ hkl) (chown_fsAgrees cfg _ hcl)
                (chown_appendsIn cfg) (by decide)
                (from_tls_tlsUntouched cfg ext)))))))

/-- C6 (confirmed): the TLS bootstrap of `initialize` is a no-op whenever
the target (key) file already exists — once the TLS key and certificate are
both present no invocation regenerates or overwrites either of them — and
when generation does run, the certificate file afterwards carries permission
bits `0644` (world-readable; the chmod of source line 267). -/
theorem C6_tls_bootstrap (cfg : Config) (args : InitArgs) (ext : Ext) (w : World)
    (hks : cfg.ssl_key ≠ cfg.secret_key_path) (hcs : cfg.ssl_cert ≠ cfg.secret_key_path)
    (hkl : cfg.ssl_key ≠ cfg.log_path) (hcl : cfg.ssl_cert ≠ cfg.log_path) :
    ((w.fs cfg.ssl_key).isSome = true → (w.fs cfg.ssl_cert).isSome = true →
      resFs (initialize_cmd cfg args ext w) cfg.ssl_key = w.fs cfg.ssl_key ∧
      resFs (initialize_cmd cfg args ext w) cfg.ssl_cert = w.fs cfg.ssl_cert ∧
      Event.opensslGen ∉ resTrace (initialize_cmd cfg args ext w) ∧
      Event.chmodCert ∉ resTrace (initialize_cmd cfg args ext w)) ∧
    (w.fs cfg.ssl_key = none → isOkSt (initialize_cmd cfg args ext w) = true →
      Event.opensslGen ∈ resTrace (initialize_cmd cfg args ext w) ∧
      Event.chmodCert ∈ resTrace (initialize_cmd cfg args ext w) ∧
      (resW (initialize_cmd cfg args ext w)).fs cfg.ssl_cert =
        some { content := "CERTIFICATE", mode := 0o644, uid := 0, gid := 0 }) := by
  constructor
  · intro hk _
    obtain ⟨g1, g2, evs, he, ho, hc⟩ :=
      init_tlsUntouched cfg args ext hks hcs hkl hcl { w := w, tr := [] } hk
    refine ⟨g1, g2, ?_, ?_⟩
    · show Event.opensslGen ∉ resTrace (init_chain cfg args ext { w := w, tr := [] })
      rw [he]
      simpa using ho
    · show Event.chmodCert ∉ resTrace (init_chain cfg args ext { w := w, tr := [] })
      rw [he]
      simpa using hc
  · intro habs hok
    cases hr : initialize_cmd cfg args ext w with
    | error s => rw [hr] at hok; simp [isOkSt] at hok
    | ok s =>
        have h' : init_chain cfg args ext { w := w, tr := [] } = .ok s := hr
        unfold init_chain at h'
        obtain ⟨s₁, e₁, h'⟩ := seqSt_ok h'
        unfold from_reconcile at h'
        obtain ⟨s₂, e₂, h'⟩ := seqSt_ok h'
        unfold from_syncdb at h'
        obtain ⟨s₃, e₃, h'⟩ := seqSt_ok h'
        unfold from_roles at h'
        obtain ⟨s₄, e₄, h'⟩ := seqSt_ok h'
        unfold from_admin at h'
        obtain ⟨s₅, e₅, h'⟩ := seqSt_ok h'
        unfold from_collect at h'
        obtain ⟨s₆, e₆, h'⟩ := seqSt_ok h'
        unfold from_chown at h'
        obtain ⟨s₇, e₇, h'⟩ := seqSt_ok h'
        unfold from_tls at h'
        obtain ⟨s₈, e₈, h'⟩ := seqSt_ok h'
        have k1 : s₁.w.fs cfg.ssl_key = w.fs cfg.ssl_key :=
          fs_ok_eq (secret_fsAgrees cfg _ hks) e₁
        have k2 : s₂.w.fs cfg.ssl_key = s₁.w.fs cfg.ssl_key :=
          fs_ok_eq (reconcile_fsAgrees ext _) e₂
        have k3 : s₃.w.fs cfg.ssl_key = s₂.w.fs cfg.ssl_key :=
          fs_ok_eq (run_external_fsAgrees ext.syncdbOk Event.syncdb _) e₃
        have k4 : s₄.w.fs cfg.ssl_key = s₃.w.fs cfg.ssl_key :=
          fs_ok_eq (roles_fsAgrees _) e₄
        have k5 : s₅.w.fs cfg.ssl_key = s₄.w.fs cfg.ssl_key :=
          fs_ok_eq (admin_fsAgrees args _) e₅
        have k6 : s₆.w.fs cfg.ssl_key = s₅.w.fs cfg.ssl_key :=
          fs_ok_eq (run_external_fsAgrees ext.collectstaticOk Event.collectstatic _) e₆
        have k7 : s₇.w.fs cfg.ssl_key = s₆.w.fs cfg.ssl_key :=
          fs_ok_eq (chown_fsAgrees cfg _ hkl) e₇
        have habs₇ : s₇.w.fs cfg.ssl_key = none := by
          rw [k7, k6, k5, k4, k3, k2, k1]
          exact habs
        unfold ensure_tls at e₈
        cases ho : ext.opensslOk
        · simp [habs₇, ho] at e₈
        · simp only [habs₇, ho, Option.isSome_none, Bool.false_eq_true, if_false,
            if_true, setFile] at e₈
          simp [setFile] at e₈
          obtain rfl := e₈
          have hcert : s.w.fs cfg.ssl_cert = _ :=
            fs_ok_eq (supervisor_fsAgrees ext cfg.ssl_cert) h'
          obtain ⟨evs, he, _, _⟩ := supervisor_appendsIn ext _
          rw [h'] at he
          simp only [resTrace] at he ⊢
          simp only [resW]
          refine ⟨?_, ?_, ?_⟩
          · rw [he]
            exact List.mem_append.mpr (Or.inl (List.mem_append.mpr (Or.inr (by simp))))
          · rw [he]
            exact List.mem_append.mpr (Or.inl (List.mem_append.mpr (Or.inr (by simp))))
          · rw [hcert]
            simp [setFile]

/-- Witness for C6: provisioned world (no regeneration) and fresh world
(generation runs and the certificate ends world-readable). -/
theorem C6_tls_bootstrap_witness :
    ((w_prov.fs cfg0.ssl_key).isSome = true ∧ (w_prov.fs cfg0.ssl_cert).isSome = true ∧
      Event.opensslGen ∉ resTrace (initialize_cmd cfg0 args_none extAllOk w_prov)) ∧
    (w_fresh.fs cfg0.ssl_key = none ∧
      isOkSt (initialize_cmd cfg0 args_none extAllOk w_fresh) = true ∧
      (resW (initialize_cmd cfg0 args_none extAllOk w_fresh)).fs cfg0.ssl_cert =
        some { content := "CERTIFICATE", mode := 0o644, uid := 0, gid := 0 }) :=
  ⟨⟨by decide, by decide,
      ((C6_tls_bootstrap cfg0 args_none extAllOk w_prov
          (by decide) (by decide) (by decide) (by decide)).1
        (by decide) (by decide)).2.2.1⟩,
   ⟨by decide, by decide,
      ((C6_tls_bootstrap cfg0 args_none extAllOk w_fresh
          (by decide) (by decide) (by decide) (by decide)).2
        (by decide) (by decide)).2.2⟩⟩

/-! ## Claim C7 -/

/-- Saving a row found by username makes the subsequent lookup of that
username return the saved row (positions are preserved by `saveUser`). -/
theorem find_save {l : List UserAccount} {u : String} {acc : UserAccount} (acc₂ : UserAccount)
    (h : l.find? (fun v => v.username == u) = some acc)
    (hid : acc₂.id = acc.id) (hname : acc₂.username = u) :
    (l.map fun v => if v.id == acc₂.id then acc₂ else v).find?
      (fun v => v.username == u) = some acc₂ := by
  induction l with
  | nil => simp at h
  | cons x xs ih =>
      by_cases hx : (x.username == u) = true
      · simp only [List.find?_cons, hx] at h
        obtain rfl := Option.some.inj h
        simp only [List.map_cons]
        rw [if_pos (show (x.id == acc₂.id) = true by simp [hid])]
        simp only [List.find?_cons]
        rw [show (acc₂.username == u) = true by simp [hname]]
      · have hx₂ : (x.username == u) = false := by simpa using hx
        simp only [List.find?_cons, hx₂] at h
        by_cases hxid : (x.id == acc₂.id) = true
        · simp only [List.map_cons]
          rw [if_pos hxid]
          simp only [List.find?_cons]
          rw [show (acc₂.username == u) = true by simp [hname]]
        · simp only [List.map_cons]
          rw [if_neg hxid]
          simp only [List.find?_cons]
          rw [hx₂]
          exact ih h

/-- Saving the membership change of a row found by username: the
subsequent lookup of that username returns the row with the new groups
(`saveGroups` preserves id, username and position of every row). -/
theorem find_saveGroups {l : List UserAccount} {u : String} {acc : UserAccount}
    (gs : List String) (h : l.find? (fun v => v.username == u) = some acc) :
    (l.map fun v => if v.id == acc.id then { v with groups := gs } else v).find?
      (fun v => v.username == u) = some { acc with groups := gs } := by
  induction l with
  | nil => simp at h
  | cons x xs ih =>
      by_cases hx : (x.username == u) = true
      · simp only [List.find?_cons, hx] at h
        obtain rfl := Option.some.inj h
        simp only [List.map_cons]
        rw [if_pos (show (x.id == x.id) = true by simp)]
        simp only [List.find?_cons]
        rw [show (({ x with groups := gs } : UserAccount).username == u) = true by
          simpa using hx]
      · have hx₂ : (x.username == u) = false := by simpa using hx
        simp only [List.find?_cons, hx₂] at h
        simp only [List.map_cons]
        by_cases hxid : (x.id == acc.id) = true
        · rw [if_pos hxid]
          simp only [List.find?_cons]
          rw [show (({ x with groups := gs } : UserAccount).username == u) = false by
            simpa using hx₂]
          exact ih h
        · rw [if_neg hxid]
          simp only [List.find?_cons]
          rw [hx₂]
          exact ih h

/-- C7 (corrected): for an existing user `u`, `assign_role u superuser`
leaves `u` with the superuser flag set and no role memberships, and
`assign_role u r` for an existing role `r` other than `superuser` leaves
`u` non-super with memberships exactly `[r]`, as claimed; but for an
unknown role name the operation raises `CalamariUserError` (RoleNotFound)
AFTER the membership clearing of source line 129 — an immediate Django M2M
database write — has been persisted: the user's persisted role memberships
are cleared, not left unchanged as the claim stated, while the persisted
superuser flag is untouched (it is only ever written by the `save()` that
is never reached). -/
theorem C7_assign_role_semantics (d : Directory) (u : String) (acc : UserAccount)
    (hu : getUser d u = some acc) :
    (∃ d₂, assign_role d u "superuser" = { dir := d₂, err := none, logs := [] } ∧
      ∃ a₂, getUser d₂ u = some a₂ ∧ a₂.is_superuser = true ∧ a₂.groups = []) ∧
    (∀ r, r ≠ "superuser" → d.roles.contains r = true →
      ∃ d₂, assign_role d u r = { dir := d₂, err := none, logs := [] } ∧
        ∃ a₂, getUser d₂ u = some a₂ ∧ a₂.is_superuser = false ∧ a₂.groups = [r]) ∧
    (∀ r, r ≠ "superuser" → d.roles.contains r = false →
      (∃ m, (assign_role d u r).err = some (.calamariUserError m)) ∧
      (assign_role d u r).dir = saveGroups d { acc with groups := [] } ∧
      ∃ a₂, getUser (assign_role d u r).dir u = some a₂ ∧
        a₂.groups = [] ∧ a₂.is_superuser = acc.is_superuser) := by
  have hname : acc.username = u := by
    have hp := List.find?_some hu
    exact eq_of_beq hp
  refine ⟨?_, ?_, ?_⟩
  · refine ⟨saveUser (saveGroups d { acc with groups := [] })
        { acc with groups := [], is_superuser := true }, ?_, ?_⟩
    · unfold assign_role
      rw [hu]
      rfl
    · exact ⟨{ acc with groups := [], is_superuser := true },
        find_save _ (@find_saveGroups d.users u acc [] hu) rfl hname, rfl, rfl⟩
  · intro r hr hc
    have hbeq : (r == "superuser") = false := by simpa using hr
    have hc₂ : ((saveGroups d { acc with groups := [] }).roles.contains r) = true := hc
    refine ⟨saveUser (saveGroups (saveGroups d { acc with groups := [] })
          { acc with groups := [r], is_superuser := false })
        { acc with groups := [r], is_superuser := false }, ?_, ?_⟩
    · unfold assign_role
      rw [hu]
      simp only [hbeq, Bool.false_eq_true, if_false, hc₂, if_true]
      rfl
    · exact ⟨{ acc with groups := [r], is_superuser := false },
        find_save _ (@find_saveGroups _ u { acc with groups := [] } [r]
          (@find_saveGroups d.users u acc [] hu)) rfl hname, rfl, rfl⟩
  · intro r hr hc
    have hbeq : (r == "superuser") = false := by simpa using hr
    have hc₂ : ((saveGroups d { acc with groups := [] }).roles.contains r) = false := hc
    have hres : assign_role d u r =
        { dir := saveGroups d { acc with groups := [] },
          err := some (.calamariUserError "Group matching query does not exist."),
          logs := ["Role " ++ r ++ " does not exist"] } := by
      unfold assign_role
      rw [hu]
      simp only [hbeq, Bool.false_eq_true, if_false, hc₂]
    refine ⟨⟨"Group matching query does not exist.", by rw [hres]⟩, by rw [hres], ?_⟩
    rw [hres]
    exact ⟨{ acc with groups := [] }, @find_saveGroups d.users u acc [] hu, rfl, rfl⟩

/-- Witness for C7: the superuser outcome and the unknown-role outcome for
the concrete user `bob` (whose memberships the unknown-role path clears). -/
theorem C7_assign_role_semantics_witness :
    getUser dirBob "bob" = some { id := 1, username := "bob", email := "b@x", password := "pw",
                                  is_active := true, is_superuser := false,
                                  groups := ["readonly"] } ∧
    (∃ d₂, assign_role dirBob "bob" "superuser" = { dir := d₂, err := none, logs := [] } ∧
      ∃ a₂, getUser d₂ "bob" = some a₂ ∧ a₂.is_superuser = true ∧ a₂.groups = []) ∧
    ("ghost" ≠ "superuser" ∧ dirBob.roles.contains "ghost" = false ∧
      ((∃ m, (assign_role dirBob "bob" "ghost").err = some (.calamariUserError m)) ∧
        (assign_role dirBob "bob" "ghost").dir =
          saveGroups dirBob { id := 1, username := "bob", email := "b@x", password := "pw",
                              is_active := true, is_superuser := false, groups := [] } ∧
        ∃ a₂, getUser (assign_role dirBob "bob" "ghost").dir "bob" = some a₂ ∧
          a₂.groups = [] ∧ a₂.is_superuser = false)) :=
  ⟨by decide,
   (C7_assign_role_semantics dirBob "bob" { id := 1, username := "bob", email := "b@x", password := "pw", is_active := true, is_superuser := false, groups := ["readonly"] } (by decide)).1,
   by decide, by decide,
   (C7_assign_role_semantics dirBob "bob" { id := 1, username := "bob", email := "b@x", password := "pw", is_active := true, is_superuser := false, groups := ["readonly"] }
     (by decide)).2.2 "ghost" (by decide) (by decide)⟩

/-- Counterexample to C7 as stated: assigning the unknown role `ghost` to
`bob` raises RoleNotFound, but `bob`'s persisted role memberships are NOT
left unchanged — the immediate M2M clearing of line 129 has emptied them
(the superuser flag alone is untouched). -/
theorem C7_assign_role_semantics_cex :
    dirBob.roles.contains "ghost" = false ∧
    (assign_role dirBob "bob" "ghost").err =
      some (.calamariUserError "Group matching query does not exist.") ∧
    getUser dirBob "bob" =
      some { id := 1, username := "bob", email := "b@x", password := "pw",
             is_active := true, is_superuser := false, groups := ["readonly"] } ∧
    getUser (assign_role dirBob "bob" "ghost").dir "bob" =
      some { id := 1, username := "bob", email := "b@x", password := "pw",
             is_active := true, is_superuser := false, groups := [] } ∧
    (assign_role dirBob "bob" "ghost").dir ≠ dirBob := by
  decide

/-! ## Claim C9 -/

/-- C9 (corrected): when the new username is already in use, `rename_user`
only logs the conflict and mutates nothing; when the new username is free
but the old user does not exist, the missing user is likewise only LOGGED —
no `UserNotFound` error escapes (contrary to the claim) and nothing is
mutated. -/
theorem C9_rename_user_behavior (d : Directory) (old_name new_name : String) :
    ((getUser d new_name).isSome = true →
      rename_user d old_name new_name =
        { dir := d, err := none,
          logs := ["New username " ++ new_name ++ " is already in use."] }) ∧
    (getUser d new_name = none → getUser d old_name = none →
      rename_user d old_name new_name =
        { dir := d, err := none,
          logs := ["User " ++ old_name ++ " does not exist."] }) := by
  constructor
  · intro h
    unfold rename_user
    cases hg : getUser d new_name with
    | none => rw [hg] at h; simp at h
    | some a => rfl
  · intro h1 h2
    unfold rename_user
    rw [h1, h2]

/-- Witness for C9: both rename failure modes at concrete directories. -/
theorem C9_rename_user_behavior_witness :
    ((getUser dirBob "bob").isSome = true ∧
      rename_user dirBob "alice" "bob" =
        { dir := dirBob, err := none,
          logs := ["New username bob is already in use."] }) ∧
    (getUser dir0 "bob" = none ∧ getUser dir0 "alice" = none ∧
      rename_user dir0 "alice" "bob" =
        { dir := dir0, err := none, logs := ["User alice does not exist."] }) :=
  ⟨⟨by decide, (C9_rename_user_behavior dirBob "alice" "bob").1 (by decide)⟩,
   ⟨by decide, by decide, (C9_rename_user_behavior dir0 "alice" "bob").2 (by decide) (by decide)⟩⟩

/-- Counterexample to C9 as stated: renaming a missing user (to a free new
name) does NOT fail with a `UserNotFound` error — no exception escapes; the
condition is only logged. -/
theorem C9_rename_user_behavior_cex :
    getUser dir0 "bob" = none ∧ getUser dir0 "alice" = none ∧
    (rename_user dir0 "alice" "bob").err = none ∧
    (rename_user dir0 "alice" "bob").logs = ["User alice does not exist."] := by
  decide

/-! ## Claim C10 -/

/-- C10 (confirmed): admin seeding creates a superuser account only when
username, password and email are all supplied (non-empty); when one or two
(or none) of them are supplied, no account is created, nothing is raised,
and the run falls through to the guidance message, printed exactly when no
superuser exists yet. -/
theorem C10_admin_seeding (d : Directory) (u p e : Option String) :
    ((truthy u && truthy p && truthy e) = false →
      (create_admin_users d u p e).1 = d ∧
      (create_admin_users d u p e).2.2 = false ∧
      (create_admin_users d u p e).2.1 =
        (if d.users.any (fun a => a.is_superuser) then [] else [admin_guidance])) ∧
    ((create_admin_users d u p e).2.2 = true →
      (truthy u && truthy p && truthy e) = true) := by
  constructor
  · intro h
    unfold create_admin_users
    rw [h]
    by_cases hs : d.users.any (fun a => a.is_superuser) = true
    · simp [hs]
    · simp only [Bool.not_eq_true] at hs
      simp [hs]
  · intro h
    by_cases ht : (truthy u && truthy p && truthy e) = true
    · exact ht
    · exfalso
      unfold create_admin_users at h
      simp only [Bool.not_eq_true] at ht
      rw [ht] at h
      by_cases hs : d.users.any (fun a => a.is_superuser) = true <;> simp [hs] at h

/-- Witness for C10: supplying only a username (no password/email) seeds
nothing; the guidance prints iff no superuser exists. -/
theorem C10_admin_seeding_witness :
    ((truthy (some "alice") && truthy none && truthy none) = false ∧
      (create_admin_users dir0 (some "alice") none none).1 = dir0 ∧
      (create_admin_users dir0 (some "alice") none none).2.1 = [admin_guidance]) ∧
    ((create_admin_users dirBob (some "alice") (some "x") none).2.2 = false) :=
  ⟨⟨by decide,
     ((C10_admin_seeding dir0 (some "alice") none none).1 (by decide)).1,
     by decide⟩,
   by decide⟩

/-! ## Claim C3 -/

/-- C3 (confirmed): the recognized user-facing errors — the
`CalamariUserError` raised for a duplicate user in `add_user` and for a
missing user or role in `assign_role` — make the dispatcher exit with
status 1 and write no crash report; any other exception escaping a command
produces a crash report holding the original argv, the full verbose log
transcript and the formatted stack trace, at the timestamped path under
`/tmp`. -/
theorem C3_error_dispatch :
    (∀ (d : Directory) (u em pw : String) (argv : List String) (lg ts : String),
      (getUser d u).isSome = true →
      main_outcome CmdFunc.add_user (add_user d u em pw).err argv lg ts =
        { exitStatus := 1, crashReport := none }) ∧
    (∀ (d : Directory) (u r : String) (argv : List String) (lg ts : String),
      getUser d u = none →
      main_outcome CmdFunc.assign_role (assign_role d u r).err argv lg ts =
        { exitStatus := 1, crashReport := none }) ∧
    (∀ (d : Directory) (u r : String) (acc : UserAccount) (argv : List String) (lg ts : String),
      getUser d u = some acc → r ≠ "superuser" → d.roles.contains r = false →
      main_outcome CmdFunc.assign_role (assign_role d u r).err argv lg ts =
        { exitStatus := 1, crashReport := none }) ∧
    (∀ (func : CmdFunc) (e : PyError) (argv : List String) (lg ts : String),
      ¬ ((func = CmdFunc.assign_role ∨ func = CmdFunc.add_user) ∧ isUserError e = true) →
      main_outcome func (some e) argv lg ts =
        { exitStatus := 0,
          crashReport := some ("/tmp/" ++ ts ++ ".txt",
            { argv := argv, log := lg, backtrace := format_exc e }) }) := by
  refine ⟨?_, ?_, ?_, ?_⟩
  · intro d u em pw argv lg ts h
    unfold add_user
    rw [if_pos h]
    rfl
  · intro d u r argv lg ts h
    unfold assign_role
    rw [h]
    rfl
  · intro d u r acc argv lg ts hu hr hc
    have hbeq : (r == "superuser") = false := by simpa using hr
    have hc₂ : ((saveGroups d { acc with groups := [] }).roles.contains r) = false := hc
    unfold assign_role
    rw [hu]
    simp only [hbeq, Bool.false_eq_true, if_false, hc₂]
    rfl
  · intro func e argv lg ts hn
    have hcond : ((func == CmdFunc.assign_role || func == CmdFunc.add_user)
        && isUserError e) = false := by
      rcases hfe : ((func == CmdFunc.assign_role || func == CmdFunc.add_user)
          && isUserError e) with _ | _
      · rfl
      · rw [Bool.and_eq_true, Bool.or_eq_true] at hfe
        exact absurd ⟨hfe.1.imp (fun hb => eq_of_beq hb) (fun hb => eq_of_beq hb), hfe.2⟩ hn
    simp [main_outcome, hcond]

/-- Witness for C3: concrete instances of all four dispatch outcomes. -/
theorem C3_error_dispatch_witness :
    ((getUser dirBob "bob").isSome = true ∧
      main_outcome CmdFunc.add_user (add_user dirBob "bob" "b@x" "pw").err
          ["calamari-ctl", "add_user", "bob"] "log" "ts" =
        { exitStatus := 1, crashReport := none }) ∧
    (getUser dirBob "ghost" = none ∧
      main_outcome CmdFunc.assign_role (assign_role dirBob "ghost" "readonly").err
          ["calamari-ctl", "assign_role", "ghost"] "log" "ts" =
        { exitStatus := 1, crashReport := none }) ∧
    (dirBob.roles.contains "ghost" = false ∧
      main_outcome CmdFunc.assign_role (assign_role dirBob "bob" "ghost").err
          ["calamari-ctl", "assign_role", "bob"] "log" "ts" =
        { exitStatus := 1, crashReport := none }) ∧
    (¬ ((CmdFunc.init = CmdFunc.assign_role ∨ CmdFunc.init = CmdFunc.add_user) ∧
        isUserError (.runtimeError "boom") = true) ∧
      main_outcome CmdFunc.init (some (.runtimeError "boom")) ["calamari-ctl"] "log" "ts" =
        { exitStatus := 0,
          crashReport := some ("/tmp/" ++ "ts" ++ ".txt",
            { argv := ["calamari-ctl"], log := "log",
              backtrace := format_exc (.runtimeError "boom") }) }) :=
  ⟨⟨by decide, C3_error_dispatch.1 dirBob "bob" "b@x" "pw" _ "log" "ts" (by decide)⟩,
   ⟨by decide, C3_error_dispatch.2.1 dirBob "ghost" "readonly" _ "log" "ts" (by decide)⟩,
   ⟨by decide, C3_error_dispatch.2.2.1 dirBob "bob" "ghost"
      { id := 1, username := "bob", email := "b@x", password := "pw",
        is_active := true, is_superuser := false, groups := ["readonly"] }
      _ "log" "ts" (by decide) (by decide) (by decide)⟩,
   ⟨by decide, C3_error_dispatch.2.2.2 CmdFunc.init (.runtimeError "boom")
      ["calamari-ctl"] "log" "ts" (by decide)⟩⟩

/-! ## Claim C8 -/

/-- C8 (corrected): `enable_user`/`disable_user` on a missing username do
fail — `objects.get` raises the user directory's not-found error — but that
error is NOT treated as an expected user error: the local handler catches
only `IntegrityError`, nothing is logged by the helper, the dispatcher does
not special-case these commands, so a crash report IS written and the
process does not exit with status 1 (contrary to the claim).  The directory
itself is left unchanged. -/
theorem C8_enable_disable_missing (d : Directory) (u : String)
    (h : getUser d u = none) (argv : List String) (lg ts : String) :
    (disable_user d u).dir = d ∧ (enable_user d u).dir = d ∧
    (disable_user d u).logs = [] ∧ (enable_user d u).logs = [] ∧
    (disable_user d u).err = some (.doesNotExist "User matching query does not exist.") ∧
    (enable_user d u).err = some (.doesNotExist "User matching query does not exist.") ∧
    main_outcome CmdFunc.disable_user (disable_user d u).err argv lg ts =
      { exitStatus := 0,
        crashReport := some ("/tmp/" ++ ts ++ ".txt",
          { argv := argv, log := lg,
            backtrace := format_exc (.doesNotExist "User matching query does not exist.") }) } ∧
    main_outcome CmdFunc.enable_user (enable_user d u).err argv lg ts =
      { exitStatus := 0,
        crashReport := some ("/tmp/" ++ ts ++ ".txt",
          { argv := argv, log := lg,
            backtrace := format_exc (.doesNotExist "User matching query does not exist.") }) } := by
  unfold disable_user enable_user change_user_active_status
  rw [h]
  exact ⟨rfl, rfl, rfl, rfl, rfl, rfl, rfl, rfl⟩

/-- Witness for C8: the amended behavior at a concrete missing user. -/
theorem C8_enable_disable_missing_witness :
    getUser dirBob "ghost" = none ∧
    ((disable_user dirBob "ghost").dir = dirBob ∧
      (enable_user dirBob "ghost").dir = dirBob ∧
      (disable_user dirBob "ghost").logs = [] ∧ (enable_user dirBob "ghost").logs = [] ∧
      (disable_user dirBob "ghost").err =
        some (.doesNotExist "User matching query does not exist.") ∧
      (enable_user dirBob "ghost").err =
        some (.doesNotExist "User matching query does not exist.") ∧
      main_outcome CmdFunc.disable_user (disable_user dirBob "ghost").err
          ["calamari-ctl", "disable_user", "ghost"] "log" "ts" =
        { exitStatus := 0,
          crashReport := some ("/tmp/" ++ "ts" ++ ".txt",
            { argv := ["calamari-ctl", "disable_user", "ghost"], log := "log",
              backtrace := format_exc
                (.doesNotExist "User matching query does not exist.") }) } ∧
      main_outcome CmdFunc.enable_user (enable_user dirBob "ghost").err
          ["calamari-ctl", "disable_user", "ghost"] "log" "ts" =
        { exitStatus := 0,
          crashReport := some ("/tmp/" ++ "ts" ++ ".txt",
            { argv := ["calamari-ctl", "disable_user", "ghost"], log := "log",
              backtrace := format_exc
                (.doesNotExist "User matching query does not exist.") }) }) :=
  ⟨by decide,
   C8_enable_disable_missing dirBob "ghost" (by decide)
     ["calamari-ctl", "disable_user", "ghost"] "log" "ts"⟩

/-- Counterexample to C8 as stated: disabling the missing user `ghost` does
not exit with status 1 and DOES write a crash report. -/
theorem C8_enable_disable_missing_cex :
    getUser dirBob "ghost" = none ∧
    (disable_user dirBob "ghost").err =
      some (.doesNotExist "User matching query does not exist.") ∧
    (main_outcome CmdFunc.disable_user (disable_user dirBob "ghost").err
        ["calamari-ctl", "disable_user", "ghost"] "log" "ts").exitStatus ≠ 1 ∧
    ((main_outcome CmdFunc.disable_user (disable_user dirBob "ghost").err
        ["calamari-ctl", "disable_user", "ghost"] "log" "ts").crashReport).isSome = true := by
  decide

/-! ## Claim C4 -/

/-- C4 (corrected): the four legacy supervisor stop/disable commands sit in
a single guarded block, attempted in order only until the first failure: a
failing attempt silently skips the REMAINING legacy attempts (contrary to
the claim that every attempt is made), but the failure never propagates —
every call goes on to attempt enabling the target service, and the call as
a whole fails only when an enable/restart/set-property command fails. -/
theorem C4_legacy_supervisor (ext : Ext) :
    supOk (setup_supervisor ext) = (ext.enableOk && ext.restartOk && ext.setPropOk) ∧
    Event.stopSupervisord ∈ supTrace (setup_supervisor ext) ∧
    Event.enableCalamari ∈ supTrace (setup_supervisor ext) ∧
    (ext.stopSupervisordOk = false →
      Event.disableSupervisord ∉ supTrace (setup_supervisor ext) ∧
      Event.stopSupervisor ∉ supTrace (setup_supervisor ext) ∧
      Event.disableSupervisor ∉ supTrace (setup_supervisor ext)) ∧
    ((ext.stopSupervisordOk && ext.disableSupervisordOk && ext.stopSupervisorOk) = true →
      Event.disableSupervisor ∈ supTrace (setup_supervisor ext)) := by
  unfold setup_supervisor
  cases h1 : ext.stopSupervisordOk <;> cases h2 : ext.disableSupervisordOk <;>
    cases h3 : ext.stopSupervisorOk <;> cases hE : ext.enableOk <;>
      cases hR : ext.restartOk <;> cases hS : ext.setPropOk <;>
        simp [h1, h2, h3, hE, hR, hS, supOk, supTrace]

/-- Witness for C4: one failing first legacy command skips the rest; with
all legacy commands succeeding, all four are attempted. -/
theorem C4_legacy_supervisor_witness :
    (extLegacyFail.stopSupervisordOk = false ∧
      Event.disableSupervisord ∉ supTrace (setup_supervisor extLegacyFail)) ∧
    ((extAllOk.stopSupervisordOk && extAllOk.disableSupervisordOk &&
        extAllOk.stopSupervisorOk) = true ∧
      Event.disableSupervisor ∈ supTrace (setup_supervisor extAllOk)) :=
  ⟨⟨by decide, ((C4_legacy_supervisor extLegacyFail).2.2.2.1 (by decide)).1⟩,
   ⟨by decide, (C4_legacy_supervisor extAllOk).2.2.2.2 (by decide)⟩⟩

/-- Counterexample to C4 as stated: when the first legacy stop command
fails, the remaining three legacy commands are never attempted (though the
failure is indeed swallowed: the call still proceeds and succeeds). -/
theorem C4_legacy_supervisor_cex :
    extLegacyFail.stopSupervisordOk = false ∧
    Event.stopSupervisord ∈ supTrace (setup_supervisor extLegacyFail) ∧
    Event.disableSupervisord ∉ supTrace (setup_supervisor extLegacyFail) ∧
    Event.stopSupervisor ∉ supTrace (setup_supervisor extLegacyFail) ∧
    Event.disableSupervisor ∉ supTrace (setup_supervisor extLegacyFail) ∧
    supOk (setup_supervisor extLegacyFail) = true := by
  decide

end Calamari
